import Mathlib

/-!
# moka: resource caches, visitor dispatch and submission

A shallow embedding of `graphics_device.hpp` (texture_cache, program_cache,
material_cache), `graphics_visitor.hpp`, the submission surface of
`graphics_device`, the subscriber and event_dispatcher classes of
`application.hpp` and `application.cpp`, `camera_decorator` of `camera.hpp` and
the key enumeration of `keyboard.hpp`, with the properties of the specification
stated and proved over it.

Conventions of the embedding:
* `std::vector<T>` is a `List T`, `emplace_back` appends at the end;
* `std::unordered_map<std::string, int>` is an association list with unique
  keys: `find` scans it, `operator[] =` overwrites the entry of a key that is
  present and adds an entry otherwise;
* `int` has 32 bits and `size_t` has 64: a `size_t` stored in an `int` keeps
  its value modulo 2^32, taken in [-2^31, 2^31), and a negative `int` used as a
  vector index converts to a `size_t` beyond the size of any vector; the
  narrowing conversion to `material_handle` is an explicit `% 2^w`;
* the `size_t` counter of subscriber ids is a `Nat` (it is incremented by one
  per construction and does not reach 2^64);
* a pointer that may be null is an `Option`, and reading through a null pointer
  is an error result;
* undefined behaviour is an outcome of its own (`index_out_of_bounds`,
  `undefined_behaviour`, `null_pointer_dereference`): the call has no defined
  result, and no value is asserted for it;
* a `const` member function returns its result and leaves the object as it was.
-/

namespace moka

/-! ## std::unordered_map<std::string, int> -/

/-- The lookup `find(id)` of an unordered map: the value stored under `id`, if any. -/
def map_find : List (String × Int) → String → Option Int
  | [], _ => none
  | (k, v) :: rest, id => if k = id then some v else map_find rest id

/-- The assignment `m[id] = v` of an unordered map: overwrite the entry of `id`
when there is one, add a new entry otherwise. -/
def map_assign : List (String × Int) → String → Int → List (String × Int)
  | [], id, v => [(id, v)]
  | (k, w) :: rest, id, v =>
      if k = id then (k, v) :: rest else (k, w) :: map_assign rest id v

/-- What a cache lookup can fail with. -/
inductive cache_error where
  /-- the exception `std::out_of_range`, thrown by `unordered_map::at` for an absent key -/
  | out_of_range
  /-- the vector's `operator[]` applied outside `[0, size())`: undefined behaviour -/
  | index_out_of_bounds
  deriving DecidableEq, Repr

/-- The conversion of a `size_t` to `int`, as in `texture_lookup_[id] = index`:
the value modulo 2^32, taken in [-2^31, 2^31). -/
def int_of_size_t (n : Nat) : Int :=
  (((n + 2147483648) % 4294967296 : Nat) : Int) - 2147483648

/-- The access `v[i]` of a vector with an `int` index: the index converts to
`size_t`, a negative one to a value of at least 2^64 - 2^31, outside every vector. -/
def vector_at {H : Type} (v : List H) (i : Int) : Except cache_error H :=
  if i < 0 then Except.error cache_error.index_out_of_bounds
  else
    match v[i.toNat]? with
    | some h => Except.ok h
    | none => Except.error cache_error.index_out_of_bounds

/-! ## texture_cache -/

/-- The class `texture_cache`: the handle sequence and the lookup map
(the back reference `device_` takes no part in the operations). -/
structure texture_cache (H : Type) where
  textures_ : List H
  texture_lookup_ : List (String × Int)
  deriving DecidableEq, Repr

namespace texture_cache

variable {H : Type}

/-- The constructor: no handles and an empty lookup map. -/
def empty : texture_cache H := ⟨[], []⟩

/-- The member `add_texture(handle, id)`. -/
def add_texture (c : texture_cache H) (handle : H) (id : String) : texture_cache H :=
  let index : Nat := c.textures_.length
  { textures_ := c.textures_ ++ [handle],
    texture_lookup_ := map_assign c.texture_lookup_ id (int_of_size_t index) }

/-- The member `exists(id)`. -/
def «exists» (c : texture_cache H) (id : String) : Bool :=
  (map_find c.texture_lookup_ id).isSome

/-- The member `get_texture(id)`: `textures_[texture_lookup_.at(id)]`. -/
def get_texture (c : texture_cache H) (id : String) : Except cache_error H :=
  match map_find c.texture_lookup_ id with
  | none => Except.error cache_error.out_of_range
  | some i => vector_at c.textures_ i

/-- The cache after a sequence of `add_texture` calls, oldest first. -/
def add_all (c : texture_cache H) : List (H × String) → texture_cache H
  | [] => c
  | (h, id) :: rest => add_all (add_texture c h id) rest

/-- A cache state reachable from the empty cache by `add_texture` calls. -/
def reachable (c : texture_cache H) : Prop :=
  ∃ calls : List (H × String), c = add_all empty calls

/-- A call of a public member function of `texture_cache`. -/
inductive call (H : Type) where
  | add_texture (handle : H) (id : String)
  | «exists» (id : String)
  | get_texture (id : String)
  deriving DecidableEq, Repr

/-- What a call of a member function gives back to its caller. -/
inductive outcome (H : Type) where
  /-- a `void` member function returned -/
  | done
  /-- the `bool` returned by `exists` -/
  | found (b : Bool)
  /-- the handle returned by `get_texture` -/
  | handle (h : H)
  /-- the call did not return a value: an exception or an out-of-bounds access -/
  | failed (e : cache_error)
  deriving DecidableEq, Repr

/-- The outcome of `get_texture` seen by the caller. -/
def outcome_of : Except cache_error H → outcome H
  | Except.ok h => outcome.handle h
  | Except.error e => outcome.failed e

/-- One call on a cache: the cache after the call and the outcome. `exists` and
`get_texture` are `const`, only `add_texture` writes to the object. -/
def step (c : texture_cache H) : call H → texture_cache H × outcome H
  | call.add_texture h id => (c.add_texture h id, outcome.done)
  | call.exists id => (c, outcome.found (c.exists id))
  | call.get_texture id => (c, outcome_of (c.get_texture id))

/-- A sequence of calls, oldest first: the final cache and the outcomes in call order. -/
def run (c : texture_cache H) : List (call H) → texture_cache H × List (outcome H)
  | [] => (c, [])
  | q :: rest =>
      let r := run (step c q).1 rest
      (r.1, (step c q).2 :: r.2)

end texture_cache

/-! ## program_cache -/

/-- The class `program_cache`: the handle sequence and the lookup map. -/
structure program_cache (H : Type) where
  shaders_ : List H
  shader_lookup_ : List (String × Int)
  deriving DecidableEq, Repr

namespace program_cache

variable {H : Type}

/-- The constructor: no handles and an empty lookup map. -/
def empty : program_cache H := ⟨[], []⟩

/-- The member `add_program(handle, id)`: its body is the single statement
`shaders_.emplace_back(handle)`. -/
def add_program (c : program_cache H) (handle : H) (_id : String) : program_cache H :=
  { c with shaders_ := c.shaders_ ++ [handle] }

/-- The member `exists(id)`. -/
def «exists» (c : program_cache H) (id : String) : Bool :=
  (map_find c.shader_lookup_ id).isSome

/-- The member `get_program(id)`: `shaders_[shader_lookup_.at(id)]`. -/
def get_program (c : program_cache H) (id : String) : Except cache_error H :=
  match map_find c.shader_lookup_ id with
  | none => Except.error cache_error.out_of_range
  | some i => vector_at c.shaders_ i

end program_cache

/-! ## material_cache -/

/-- The value `std::numeric_limits<material_handle>::max()` of an unsigned
handle type of `w` bits. -/
def material_handle_max (w : Nat) : Nat := 2 ^ w - 1

/-- The conversion `material_handle(index)` of a `size_t` to the unsigned handle
type of `w` bits: the value modulo `2^w`. -/
def material_handle (w : Nat) (index : Nat) : Nat := index % 2 ^ w

/-- The class `material_cache`: the materials, stored by value. -/
structure material_cache (M : Type) where
  materials_ : List M
  deriving DecidableEq, Repr

/-- The outcome of a call of `get_material`. -/
inductive material_ptr (M : Type) where
  /-- the null pointer `nullptr` -/
  | null
  /-- the address of the stored material `materials_[index]` -/
  | element (index : Nat) (m : M)
  /-- undefined behaviour: `materials_[index]` was evaluated with `index >= size()`,
  unchecked; the language defines no result for the call (if it returns, the
  pointer may be anything, null included) -/
  | undefined_behaviour (index : Nat)
  deriving DecidableEq, Repr

namespace material_cache

variable {M : Type}

/-- The constructor: no materials. -/
def empty : material_cache M := ⟨[]⟩

/-- The member `add_material(t)` with a handle type of `w` bits: the returned
handle and the cache after the call. -/
def add_material (w : Nat) (c : material_cache M) (t : M) : Nat × material_cache M :=
  let index : Nat := c.materials_.length
  (material_handle w index, { materials_ := c.materials_ ++ [t] })

/-- The member `get_material(handle)` with a handle type of `w` bits. -/
def get_material (w : Nat) (c : material_cache M) (handle : Nat) : material_ptr M :=
  if handle = material_handle_max w then material_ptr.null
  else
    match c.materials_[handle]? with
    | some m => material_ptr.element handle m
    | none => material_ptr.undefined_behaviour handle

/-- A sequence of `add_material` calls, oldest first: the handles returned, in
call order, and the cache after the last call. -/
def add_all (w : Nat) (c : material_cache M) : List M → List Nat × material_cache M
  | [] => ([], c)
  | t :: rest =>
      let r := add_all w (add_material w c t).2 rest
      ((add_material w c t).1 :: r.1, r.2)

end material_cache

/-! ## graphics_visitor -/

/-- The command classes forward-declared at the head of `graphics_visitor.hpp`,
in source order. -/
def forward_declared_commands : List String :=
  ["clear_command", "draw_command", "scissor_command", "viewport_command",
   "fill_vertex_buffer_command", "fill_index_buffer_command", "frame_buffer_command",
   "frame_buffer_texture_command", "generate_mipmaps_command",
   "set_material_parameters_command"]

/-- The variants of a Command in the data model. -/
inductive command_kind where
  | Clear
  | Draw
  | Viewport
  | Scissor
  | FillVertexBuffer
  | FillIndexBuffer
  | FrameBuffer
  | FrameBufferTexture
  | GenerateMipmaps
  | SetMaterialParameters
  deriving DecidableEq, Repr

namespace command_kind

/-- All variants of the data model, in the order the data model lists them. -/
def all : List command_kind :=
  [Clear, Draw, Viewport, Scissor, FillVertexBuffer, FillIndexBuffer, FrameBuffer,
   FrameBufferTexture, GenerateMipmaps, SetMaterialParameters]

/-- The command class that implements a variant. -/
def class_name : command_kind → String
  | Clear => "clear_command"
  | Draw => "draw_command"
  | Viewport => "viewport_command"
  | Scissor => "scissor_command"
  | FillVertexBuffer => "fill_vertex_buffer_command"
  | FillIndexBuffer => "fill_index_buffer_command"
  | FrameBuffer => "frame_buffer_command"
  | FrameBufferTexture => "frame_buffer_texture_command"
  | GenerateMipmaps => "generate_mipmaps_command"
  | SetMaterialParameters => "set_material_parameters_command"

end command_kind

namespace graphics_visitor

/-- The pure virtual `visit` operations of `graphics_visitor`, each given by the
class of its parameter, in declaration order. -/
def visit_operations : List String :=
  ["clear_command", "draw_command", "viewport_command", "scissor_command",
   "fill_vertex_buffer_command", "fill_index_buffer_command", "frame_buffer_command",
   "frame_buffer_texture_command", "generate_mipmaps_command",
   "set_material_parameters_command"]

/-- The operations a call `visit(cmd)` can bind to, for `cmd` of class `cls`: the
positions of the declarations whose parameter is a reference to `cls`. -/
def candidates (cls : String) : List Nat :=
  (List.range visit_operations.length).filter
    (fun i => visit_operations[i]? == some cls)

/-- Overload resolution of `visit(cmd)` for a command of the given variant: the
one operation that takes its class; no result when none or several do. -/
def dispatch (k : command_kind) : Option Nat :=
  match candidates k.class_name with
  | [i] => some i
  | _ => none

end graphics_visitor

/-! ## Command lists and submission -/

/-- Modelled from the spec: the Command of the data model (section 3), whose
classes are declared in `command_list.hpp`, a header that is not among the
sources. Each variant carries the data the spec and the `hello_triangle`
example name; resource handles are numbers. -/
inductive Command where
  | Clear (color : Nat × Nat × Nat × Nat) (clear_color : Bool) (clear_depth : Bool)
  | Draw (vertex_buffer : Nat) (material : Nat) (vertex_count : Nat)
      (index_buffer : Option Nat) (sort_key : Option Nat)
  | Viewport (x y width height : Nat)
  | Scissor (x y width height : Nat)
  | FillVertexBuffer (vertex_buffer : Nat) (data : List Nat)
  | FillIndexBuffer (index_buffer : Nat) (data : List Nat)
  | FrameBuffer (frame_buffer : Nat)
  | FrameBufferTexture (frame_buffer : Nat) (texture : Nat)
  | GenerateMipmaps (texture : Nat)
  | SetMaterialParameters (material : Nat) (parameters : List (String × Nat))
  deriving DecidableEq, Repr

/-- The variant of a command. -/
def Command.kind : Command → command_kind
  | Command.Clear _ _ _ => command_kind.Clear
  | Command.Draw _ _ _ _ _ => command_kind.Draw
  | Command.Viewport _ _ _ _ => command_kind.Viewport
  | Command.Scissor _ _ _ _ => command_kind.Scissor
  | Command.FillVertexBuffer _ _ => command_kind.FillVertexBuffer
  | Command.FillIndexBuffer _ _ => command_kind.FillIndexBuffer
  | Command.FrameBuffer _ => command_kind.FrameBuffer
  | Command.FrameBufferTexture _ _ => command_kind.FrameBufferTexture
  | Command.GenerateMipmaps _ => command_kind.GenerateMipmaps
  | Command.SetMaterialParameters _ _ => command_kind.SetMaterialParameters

/-- Modelled from the spec: a command as the Device tracks it for sorting
(section 4.4, the implementation `graphics_device.cpp` is not among the
sources): its position in the recorded list, the frame-buffer target in force
where it was recorded (`none` is the default frame buffer), and the command. -/
structure recorded_command where
  index : Nat
  target : Option Nat
  command : Command
  deriving DecidableEq, Repr

/-- Modelled from the spec: the frame-buffer target after a command; a
FrameBuffer command binds its frame buffer, every other command leaves the
target as it is. -/
def next_target (target : Option Nat) : Command → Option Nat
  | Command.FrameBuffer fb => some fb
  | _ => target

/-- Modelled from the spec: the recorded list with each command's position and
frame-buffer target, from position `index` and target `target` on. -/
def record_from (index : Nat) (target : Option Nat) : List Command → List recorded_command
  | [] => []
  | c :: rest => ⟨index, target, c⟩ :: record_from (index + 1) (next_target target c) rest

/-- Modelled from the spec: a whole command list as recorded, positions from 0,
the default frame buffer bound at the start. -/
def record (list : List Command) : List recorded_command :=
  record_from 0 none list

/-- Modelled from the spec: what the Device tracks ordering dependencies by
(section 4.4): the resource handles and the frame-buffer target, together with
the pieces of backend state that state-setting commands change. -/
inductive resource where
  /-- which frame buffer is bound, the target of the clears and draws that follow -/
  | frame_buffer_binding
  /-- the viewport rectangle -/
  | viewport
  /-- the scissor rectangle -/
  | scissor
  /-- the contents and the frame-buffer attachments of the textures -/
  | textures
  /-- the contents of a vertex buffer -/
  | vertex_buffer (handle : Nat)
  /-- the contents of an index buffer -/
  | index_buffer (handle : Nat)
  /-- the parameters of a material -/
  | material (handle : Nat)
  /-- the contents of the bound frame-buffer target -/
  | target_contents
  deriving DecidableEq, Repr

/-- Modelled from the spec: what a command reads when the backend executes it. A
clear and a draw act on the bound frame buffer under the scissor; a draw also
uses the viewport, the textures, its buffers and its material. -/
def reads : Command → List resource
  | Command.Clear _ _ _ => [resource.frame_buffer_binding, resource.scissor]
  | Command.Draw vb mat _ ib _ =>
      [resource.frame_buffer_binding, resource.viewport, resource.scissor, resource.textures,
       resource.vertex_buffer vb, resource.material mat]
        ++ (match ib with
            | some i => [resource.index_buffer i]
            | none => [])
  | Command.FrameBufferTexture _ _ => [resource.frame_buffer_binding]
  | _ => []

/-- Modelled from the spec: what a command overwrites: a clear the contents of the
bound target, a state-setting command the state it sets, an upload the buffer
it fills. -/
def writes : Command → List resource
  | Command.Clear _ _ _ => [resource.target_contents]
  | Command.Draw _ _ _ _ _ => []
  | Command.Viewport _ _ _ _ => [resource.viewport]
  | Command.Scissor _ _ _ _ => [resource.scissor]
  | Command.FillVertexBuffer v _ => [resource.vertex_buffer v]
  | Command.FillIndexBuffer i _ => [resource.index_buffer i]
  | Command.FrameBuffer _ => [resource.frame_buffer_binding]
  | Command.FrameBufferTexture _ _ => [resource.textures]
  | Command.GenerateMipmaps _ => [resource.textures]
  | Command.SetMaterialParameters mat _ => [resource.material mat]

/-- Modelled from the spec: what a command adds to without replacing it: a draw
renders into the bound target. Draws into one target may be regrouped by the
sort, so two of them do not depend on each other. -/
def accumulates : Command → List resource
  | Command.Draw _ _ _ _ _ => [resource.target_contents]
  | _ => []

/-- Modelled from the spec: `a` overwrites something that `b` reads, overwrites or
adds to. -/
def hazard (a b : Command) : Bool :=
  decide (∃ r ∈ writes a, r ∈ reads b ∨ r ∈ writes b ∨ r ∈ accumulates b)

/-- Modelled from the spec: an ordering dependency between two commands, in
either direction; only commands without one may be swapped (section 4.4). The
frame-buffer target is tracked through the binding: a clear and a draw depend
on every bind, so neither crosses one, and two of them that can meet act on
the same target. -/
def conflict (a b : Command) : Bool :=
  hazard a b || hazard b a

/-- Modelled from the spec: one command moved towards the back of an already
sorted list, swapping it with its successor as long as the successor has a
strictly smaller key and no dependency ties the two. -/
def insert_command (key : recorded_command → Nat) (x : recorded_command) :
    List recorded_command → List recorded_command
  | [] => [x]
  | y :: rest =>
      if key y < key x ∧ conflict x.command y.command = false then
        y :: insert_command key x rest
      else x :: y :: rest

/-- Modelled from the spec: the sort of a command list (section 4.4): ascending
by key, commands of equal key in their recorded order, commands tied by a
dependency never swapped. The spec fixes no key formula, so `key` is a parameter. -/
def sort_commands (key : recorded_command → Nat) : List recorded_command → List recorded_command
  | [] => []
  | x :: rest => insert_command key x (sort_commands key rest)

/-- A call the Device makes on the active backend. -/
inductive backend_call where
  /-- the `visit` operation of the command's class, applied to the command -/
  | visit (cmd : Command)
  /-- the presentation of the frame (buffer swap) -/
  | swap_buffers
  deriving DecidableEq, Repr

/-- Modelled from the spec: the error `BackendDispatchError{command_kind, reason}`
of section 4.4. -/
structure BackendDispatchError where
  command_kind : command_kind
  reason : String
  deriving DecidableEq, Repr

/-- Modelled from the spec: the active backend behind the dispatcher (sections 4.3
and 4.4), over its state `B`: `visit` executes the operation that matches the
command and gives the state after it, or fails with a reason; `swap_buffers`
presents the frame. -/
structure backend (B : Type) where
  visit : B → Command → Except String B
  swap_buffers : B → B

/-- Modelled from the spec: the backend state after the commands were executed in
the given order, or the reason of the first failure. -/
def backend.run {B : Type} (be : backend B) : B → List Command → Except String B
  | b, [] => Except.ok b
  | b, c :: rest =>
    match be.visit b c with
    | Except.error reason => Except.error reason
    | Except.ok b' => be.run b' rest

/-- Modelled from the spec: what a submission leaves: the calls made on the
backend, in order, the backend state, and the failure reported to the caller,
`none` when the submission succeeded. -/
structure submission (B : Type) where
  calls : List backend_call
  state : B
  error : Option BackendDispatchError

namespace graphics_device

/-- Modelled from the spec: the order in which `submit` dispatches a list:
the recorded order, sorted first when `sort` is set. -/
def dispatch_order (key : recorded_command → Nat) (list : List Command) (sort : Bool) :
    List recorded_command :=
  if sort then sort_commands key (record list) else record list

/-- Modelled from the spec: the dispatch of the commands in the given order
(sections 4.4 and 7): each command is passed to the backend; when a call fails
the remainder is aborted and the failure reported with the kind of the failing
command, the commands already executed are not rolled back (the state kept is
the one before the failing call, the spec leaves it undefined). -/
def dispatch_all {B : Type} (be : backend B) : B → List Command → submission B
  | b, [] => ⟨[], b, none⟩
  | b, c :: rest =>
    match be.visit b c with
    | Except.error reason => ⟨[backend_call.visit c], b, some ⟨c.kind, reason⟩⟩
    | Except.ok b' =>
      let r := dispatch_all be b' rest
      ⟨backend_call.visit c :: r.calls, r.state, r.error⟩

/-- Modelled from the spec: `submit(command_list, sort)` (declared in
`graphics_device.hpp`, defined in a file that is not among the sources) on the
backend `be` in state `b`: the list is reordered when `sort` is set, then
dispatched command by command. -/
def submit {B : Type} (key : recorded_command → Nat) (be : backend B) (b : B)
    (list : List Command) (sort : Bool) : submission B :=
  dispatch_all be b ((dispatch_order key list sort).map (fun r => r.command))

end graphics_device

/-- A backend for the examples: its state counts the commands executed, and it
fails, with the reason "device lost", on the commands of the rejected kinds. -/
def counting_backend (rejected : List command_kind) : backend Nat where
  visit := fun b c =>
    if c.kind ∈ rejected then Except.error "device lost" else Except.ok (b + 1)
  swap_buffers := fun b => b

/-- The initial value of the static counter `available_ids_` of `event_subscriber`
(`m_available_ids` of `subscriber`), a `std::atomic<size_t>` initialised with `{}`. -/
def available_ids_initial : Nat := 0

/-- An `event_subscriber` (`subscriber`) object: its `id_` (`m_id`) and the event
categories its `notifiers_` (`m_notifiers`) has a handler for. -/
structure event_subscriber where
  id_ : Nat
  notifiers_ : List Nat
  deriving DecidableEq, Repr

/-- The program state the subscribers share: the static counter and the
subscriber objects in the order they were constructed. -/
structure subscriber_world where
  available_ids_ : Nat
  objects : List event_subscriber
  deriving DecidableEq, Repr

/-- A use of the subscriber classes. -/
inductive subscriber_call where
  /-- the constructor `event_subscriber()` (`subscriber()`) -/
  | construct
  /-- the member `connect<T>(slot)` of the object constructed at `position`, for an
  event type of the given category -/
  | connect (position : Nat) (category : Nat)
  /-- the member `notify(e)` of the object constructed at `position`, for an event
  of the given category -/
  | notify (position : Nat) (category : Nat)
  deriving DecidableEq, Repr

namespace subscriber_world

/-- The state at program start: the counter at its initial value, no subscriber. -/
def initial : subscriber_world := ⟨available_ids_initial, []⟩

/-- The constructor: `id_ = ++available_ids_`, the pre-increment giving the
incremented value. -/
def construct (w : subscriber_world) : subscriber_world :=
  let id := w.available_ids_ + 1
  { available_ids_ := id, objects := w.objects ++ [⟨id, []⟩] }

/-- The body of `connect` on one object: a handler for the category is added to
its notifiers (`emplace` keeps an existing handler); the counter is not used. -/
def connect_object (category : Nat) (s : event_subscriber) : event_subscriber :=
  if category ∈ s.notifiers_ then s
  else { s with notifiers_ := s.notifiers_ ++ [category] }

/-- The objects after `connect` on the one constructed at `position`. -/
def connect_at (category : Nat) : Nat → List event_subscriber → List event_subscriber
  | _, [] => []
  | 0, s :: rest => connect_object category s :: rest
  | position + 1, s :: rest => s :: connect_at category position rest

/-- The member `connect` of the object constructed at `position`. -/
def connect (w : subscriber_world) (position category : Nat) : subscriber_world :=
  { w with objects := connect_at category position w.objects }

/-- One use of the classes. `notify` only reads the notifiers and calls the
handler, it writes neither the object nor the counter. -/
def step (w : subscriber_world) : subscriber_call → subscriber_world
  | subscriber_call.construct => w.construct
  | subscriber_call.connect position category => w.connect position category
  | subscriber_call.notify _ _ => w

/-- A sequence of uses, oldest first. -/
def run (w : subscriber_world) : List subscriber_call → subscriber_world
  | [] => w
  | q :: rest => run (w.step q) rest

end subscriber_world

/-! ## event_dispatcher -/

/-- A non-null `subscriber*`: the address of the object and the `m_id` read
through it. -/
structure subscriber_ref where
  address : Nat
  m_id : Nat
  deriving DecidableEq, Repr

/-- The struct `event_queue_item`: the event and the `subscriber*` it is
addressed to, `none` being `nullptr`. -/
structure event_queue_item (E : Type) where
  event : E
  subscriber : Option subscriber_ref
  deriving DecidableEq, Repr

/-- The lookup `find(id)` of `m_subscribers`. -/
def subscribers_find : List (Nat × subscriber_ref) → Nat → Option subscriber_ref
  | [], _ => none
  | (k, v) :: rest, id => if k = id then some v else subscribers_find rest id

/-- The assignment `m_subscribers[id] = recipient`. -/
def subscribers_assign :
    List (Nat × subscriber_ref) → Nat → subscriber_ref → List (Nat × subscriber_ref)
  | [], id, v => [(id, v)]
  | (k, w) :: rest, id, v =>
      if k = id then (k, v) :: rest else (k, w) :: subscribers_assign rest id v

/-- What a member of `event_dispatcher` can fail with. -/
inductive dispatcher_error where
  /-- the access `recipient->m_id` through a null pointer: undefined behaviour -/
  | null_pointer_dereference
  deriving DecidableEq, Repr

/-- The class `event_dispatcher`: the event queue, oldest item first, and the
subscriber table (thread, mutex and condition variable take no part in what a
single call computes). -/
structure event_dispatcher (E : Type) where
  m_events : List (event_queue_item E)
  m_subscribers : List (Nat × subscriber_ref)
  deriving DecidableEq, Repr

namespace event_dispatcher

variable {E : Type}

/-- The member `registered(recipient)`: it reads `recipient->m_id` first. -/
def registered (d : event_dispatcher E) (recipient : Option subscriber_ref) :
    Except dispatcher_error Bool :=
  match recipient with
  | none => Except.error dispatcher_error.null_pointer_dereference
  | some r => Except.ok (subscribers_find d.m_subscribers r.m_id).isSome

/-- The member `register_subscribers(recipient)`. -/
def register_subscribers (d : event_dispatcher E) (recipient : Option subscriber_ref) :
    Except dispatcher_error (event_dispatcher E) :=
  match recipient with
  | none => Except.error dispatcher_error.null_pointer_dereference
  | some r => Except.ok { d with m_subscribers := subscribers_assign d.m_subscribers r.m_id r }

/-- The member `try_register(recipient)`. -/
def try_register (d : event_dispatcher E) (recipient : Option subscriber_ref) :
    Except dispatcher_error (event_dispatcher E) :=
  match d.registered recipient with
  | Except.error e => Except.error e
  | Except.ok true => Except.ok d
  | Except.ok false => d.register_subscribers recipient

/-- The member `post_event(event, recipient)`; the default `recipient` is `nullptr`. -/
def post_event (d : event_dispatcher E) (event : E) (recipient : Option subscriber_ref) :
    Except dispatcher_error (event_dispatcher E) :=
  match d.registered recipient with
  | Except.error e => Except.error e
  | Except.ok reg =>
    match (if !reg then d.register_subscribers recipient else Except.ok d) with
    | Except.error e => Except.error e
    | Except.ok d1 => Except.ok { d1 with m_events := d1.m_events ++ [⟨event, recipient⟩] }

/-- One turn of the loop of `run`: the oldest item is taken from the queue and,
when it has a subscriber attached, that subscriber is notified of the event; an
item with a null subscriber is dropped. The result is the notification made, if
any, and the dispatcher after the turn; there is no turn on an empty queue. -/
def run_turn (d : event_dispatcher E) :
    Option (Option (subscriber_ref × E) × event_dispatcher E) :=
  match d.m_events with
  | [] => none
  | item :: rest =>
    match item.subscriber with
    | some s => some (some (s, item.event), { d with m_events := rest })
    | none => some (none, { d with m_events := rest })

end event_dispatcher

/-! ## camera_decorator -/

/-- The interface `base_camera`: the virtual accessors and setters of a camera
class over its object state `S`. The value types of `glm` and `transform` are
parameters. -/
structure base_camera (S Mat4 Quat Vec3 Transform : Type) where
  get_view : S → Mat4
  get_rotation : S → Quat
  set_rotation : Quat → S → S
  get_position : S → Vec3
  set_position : Vec3 → S → S
  get_projection : S → Mat4
  set_projection : Mat4 → S → S
  get_transform : S → Transform
  set_transform : Transform → S → S

/-- The class `camera_decorator`: the wrapped camera `camera_`. -/
structure camera_decorator (S : Type) where
  camera_ : S
  deriving DecidableEq, Repr

namespace camera_decorator

variable {S Mat4 Quat Vec3 Transform : Type}

/-- The member `get_view()`: `return camera_->get_view();`. -/
def get_view (cam : base_camera S Mat4 Quat Vec3 Transform) (d : camera_decorator S) : Mat4 :=
  cam.get_view d.camera_

/-- The member `get_rotation()`: `return camera_->get_view();`, the matrix
converted to the quaternion return type by `quat_of_mat4`, the converting
constructor of `glm::quat`. -/
def get_rotation (cam : base_camera S Mat4 Quat Vec3 Transform) (quat_of_mat4 : Mat4 → Quat)
    (d : camera_decorator S) : Quat :=
  quat_of_mat4 (cam.get_view d.camera_)

/-- The member `set_rotation(rotation)`. -/
def set_rotation (cam : base_camera S Mat4 Quat Vec3 Transform) (rotation : Quat)
    (d : camera_decorator S) : camera_decorator S :=
  ⟨cam.set_rotation rotation d.camera_⟩

/-- The member `get_position()`. -/
def get_position (cam : base_camera S Mat4 Quat Vec3 Transform) (d : camera_decorator S) : Vec3 :=
  cam.get_position d.camera_

/-- The member `set_position(position)`. -/
def set_position (cam : base_camera S Mat4 Quat Vec3 Transform) (position : Vec3)
    (d : camera_decorator S) : camera_decorator S :=
  ⟨cam.set_position position d.camera_⟩

/-- The member `get_projection()`. -/
def get_projection (cam : base_camera S Mat4 Quat Vec3 Transform) (d : camera_decorator S) :
    Mat4 :=
  cam.get_projection d.camera_

/-- The member `set_projection(projection)`. -/
def set_projection (cam : base_camera S Mat4 Quat Vec3 Transform) (projection : Mat4)
    (d : camera_decorator S) : camera_decorator S :=
  ⟨cam.set_projection projection d.camera_⟩

/-- The member `get_transform()`. -/
def get_transform (cam : base_camera S Mat4 Quat Vec3 Transform) (d : camera_decorator S) :
    Transform :=
  cam.get_transform d.camera_

/-- The member `set_transform(transform)`. -/
def set_transform (cam : base_camera S Mat4 Quat Vec3 Transform) (transform : Transform)
    (d : camera_decorator S) : camera_decorator S :=
  ⟨cam.set_transform transform d.camera_⟩

end camera_decorator

/-- A camera object seen through `base_camera`: what each of its accessors
returns. Quaternions are (w, x, y, z), matrices are their sixteen entries. -/
structure camera_values where
  view : List Int
  rotation : Int × Int × Int × Int
  position : Int × Int × Int
  projection : List Int
  transform : (Int × Int × Int) × (Int × Int × Int × Int)
  deriving DecidableEq, Repr

/-- The implementation of `base_camera` by a camera whose accessors return the
stored values and whose setters store their argument. -/
def camera_values.interface :
    base_camera camera_values (List Int) (Int × Int × Int × Int) (Int × Int × Int)
      ((Int × Int × Int) × (Int × Int × Int × Int)) where
  get_view := fun c => c.view
  get_rotation := fun c => c.rotation
  set_rotation := fun r c => { c with rotation := r }
  get_position := fun c => c.position
  set_position := fun p c => { c with position := p }
  get_projection := fun c => c.projection
  set_projection := fun m c => { c with projection := m }
  get_transform := fun c => c.transform
  set_transform := fun t c => { c with transform := t }

/-- The identity matrix, entry by entry. -/
def identity_matrix : List Int := [1, 0, 0, 0, 0, 1, 0, 0, 0, 0, 1, 0, 0, 0, 0, 1]

/-- A camera at the origin with the given rotation whose view is the identity
matrix, as `basic_camera::get_view` gives for the rotations (1, 0, 0, 0) and
(-1, 0, 0, 0). -/
def camera_at_origin (rotation : Int × Int × Int × Int) : camera_values :=
  { view := identity_matrix, rotation := rotation, position := (0, 0, 0),
    projection := identity_matrix, transform := ((0, 0, 0), rotation) }

/-! ## key and keyboard_state -/

/-- The enumeration `enum class key` of `keyboard.hpp`. -/
inductive key where
  | none
  | esc
  | enter
  | tab
  | space
  | backspace
  | up
  | down
  | left
  | right
  | insert
  | del
  | home
  | «end»
  | page_up
  | page_down
  | print
  | plus
  | minus
  | left_bracket
  | right_bracket
  | semicolon
  | quote
  | comma
  | period
  | slash
  | backslash
  | tilde
  | f1
  | f2
  | f3
  | f4
  | f5
  | f6
  | f7
  | f8
  | f9
  | f10
  | f11
  | f12
  | numpad_0
  | numpad_1
  | numpad_2
  | numpad_3
  | numpad_4
  | numpad_5
  | numpad_6
  | numpad_7
  | numpad_8
  | numpad_9
  | keypad_0
  | keypad_1
  | keypad_2
  | keypad_3
  | keypad_4
  | keypad_5
  | keypad_6
  | keypad_7
  | keypad_8
  | keypad_9
  | a
  | b
  | c
  | d
  | e
  | f
  | g
  | h
  | i
  | j
  | k
  | l
  | m
  | n
  | o
  | p
  | q
  | r
  | s
  | t
  | u
  | v
  | w
  | x
  | y
  | z
  deriving DecidableEq, Repr

/-- The enumerators of `key` in declaration order, each with its initialiser when
it has one: only `none = 0` has. -/
def key_declarations : List (key × Option Nat) :=
  [(key.none, Option.some 0), (key.esc, Option.none), (key.enter, Option.none), (key.tab, Option.none), (key.space, Option.none),
   (key.backspace, Option.none), (key.up, Option.none), (key.down, Option.none), (key.left, Option.none),
   (key.right, Option.none), (key.insert, Option.none), (key.del, Option.none), (key.home, Option.none), (key.«end», Option.none),
   (key.page_up, Option.none), (key.page_down, Option.none), (key.print, Option.none), (key.plus, Option.none),
   (key.minus, Option.none), (key.left_bracket, Option.none), (key.right_bracket, Option.none),
   (key.semicolon, Option.none), (key.quote, Option.none), (key.comma, Option.none), (key.period, Option.none),
   (key.slash, Option.none), (key.backslash, Option.none), (key.tilde, Option.none), (key.f1, Option.none), (key.f2, Option.none),
   (key.f3, Option.none), (key.f4, Option.none), (key.f5, Option.none), (key.f6, Option.none), (key.f7, Option.none),
   (key.f8, Option.none), (key.f9, Option.none), (key.f10, Option.none), (key.f11, Option.none), (key.f12, Option.none),
   (key.numpad_0, Option.none), (key.numpad_1, Option.none), (key.numpad_2, Option.none), (key.numpad_3, Option.none),
   (key.numpad_4, Option.none), (key.numpad_5, Option.none), (key.numpad_6, Option.none), (key.numpad_7, Option.none),
   (key.numpad_8, Option.none), (key.numpad_9, Option.none), (key.keypad_0, Option.none), (key.keypad_1, Option.none),
   (key.keypad_2, Option.none), (key.keypad_3, Option.none), (key.keypad_4, Option.none), (key.keypad_5, Option.none),
   (key.keypad_6, Option.none), (key.keypad_7, Option.none), (key.keypad_8, Option.none), (key.keypad_9, Option.none),
   (key.a, Option.none), (key.b, Option.none), (key.c, Option.none), (key.d, Option.none), (key.e, Option.none), (key.f, Option.none),
   (key.g, Option.none), (key.h, Option.none), (key.i, Option.none), (key.j, Option.none), (key.k, Option.none), (key.l, Option.none),
   (key.m, Option.none), (key.n, Option.none), (key.o, Option.none), (key.p, Option.none), (key.q, Option.none), (key.r, Option.none),
   (key.s, Option.none), (key.t, Option.none), (key.u, Option.none), (key.v, Option.none), (key.w, Option.none), (key.x, Option.none),
   (key.y, Option.none), (key.z, Option.none)]

/-- The values of a list of enumerators: an enumerator has the value of its
initialiser, or one more than the enumerator before it (`next`) without one. -/
def enumerator_values : Nat → List (key × Option Nat) → List (key × Nat)
  | _, [] => []
  | _, (en, Option.some val) :: rest => (en, val) :: enumerator_values (val + 1) rest
  | next, (en, Option.none) :: rest => (en, next) :: enumerator_values (next + 1) rest

/-- The numeric value of a key, `static_cast<size_t>(key)`. -/
def key_value (en : key) : Nat :=
  match (enumerator_values 0 key_declarations).lookup en with
  | Option.some val => val
  | Option.none => 0

/-- The number of elements of `keyboard_state::keys_`, a `std::array<bool, 86>`. -/
def keyboard_state.keys_size : Nat := 86

/-! # Properties -/

/-! ## The lookup map -/

theorem map_find_assign_same (m : List (String × Int)) (id : String) (v : Int) :
    map_find (map_assign m id v) id = some v := by
  induction m with
  | nil => simp [map_assign, map_find]
  | cons p rest ih =>
    obtain ⟨k, w⟩ := p
    by_cases hk : k = id
    · simp [map_assign, map_find, hk]
    · simp [map_assign, map_find, hk, ih]

theorem map_find_assign_other (m : List (String × Int)) (id k : String) (v : Int)
    (hne : k ≠ id) : map_find (map_assign m id v) k = map_find m k := by
  induction m with
  | nil =>
    have : ¬ id = k := fun e => hne e.symm
    simp [map_assign, map_find, this]
  | cons p rest ih =>
    obtain ⟨k', w⟩ := p
    by_cases hk : k' = id
    · have : ¬ id = k := fun e => hne e.symm
      simp [map_assign, map_find, hk, this]
    · by_cases hk' : k' = k
      · subst hk'
        simp [map_assign, map_find, hk]
      · simp [map_assign, map_find, hk, hk', ih]

theorem mem_of_map_find {m : List (String × Int)} {k : String} {i : Int}
    (h : map_find m k = some i) : (k, i) ∈ m := by
  induction m with
  | nil => simp [map_find] at h
  | cons p rest ih =>
    obtain ⟨k', w⟩ := p
    by_cases hk : k' = k
    · simp [map_find, hk] at h
      simp [hk, h]
    · simp [map_find, hk] at h
      exact List.mem_cons_of_mem _ (ih h)

theorem mem_map_assign {m : List (String × Int)} {id : String} {v : Int}
    {p : String × Int} (h : p ∈ map_assign m id v) : p ∈ m ∨ p = (id, v) := by
  induction m with
  | nil => simpa [map_assign] using h
  | cons q rest ih =>
    obtain ⟨k, w⟩ := q
    by_cases hk : k = id
    · simp [map_assign, hk] at h
      rcases h with h | h
      · exact Or.inr h
      · exact Or.inl (List.mem_cons_of_mem _ h)
    · simp [map_assign, hk] at h
      rcases h with h | h
      · exact Or.inl (by simp [h])
      · rcases ih h with h' | h'
        · exact Or.inl (List.mem_cons_of_mem _ h')
        · exact Or.inr h'

/-! ## The vector and the int index -/

theorem int_of_size_t_of_lt (n : Nat) (hn : n < 2147483648) : int_of_size_t n = (n : Int) := by
  unfold int_of_size_t
  omega

theorem int_of_size_t_le (n : Nat) : int_of_size_t n ≤ (n : Int) := by
  unfold int_of_size_t
  omega

theorem int_of_size_t_neg_of_half (n : Nat) (hlo : 2147483648 ≤ n) (hhi : n < 4294967296) :
    int_of_size_t n < 0 := by
  unfold int_of_size_t
  omega

theorem vector_at_append_last {H : Type} (v : List H) (x : H) :
    vector_at (v ++ [x]) (Int.ofNat v.length) = Except.ok x := by
  simp [vector_at]

theorem vector_at_append_of_lt {H : Type} (v : List H) (x : H) (i : Int)
    (hlt : i < v.length) : vector_at (v ++ [x]) i = vector_at v i := by
  by_cases hneg : i < 0
  · simp [vector_at, hneg]
  · have hn : i.toNat < v.length := by omega
    simp [vector_at, List.getElem?_append_left hn]

theorem vector_at_ok_of_lt {H : Type} (v : List H) (i : Int)
    (h0 : 0 ≤ i) (hlt : i < v.length) : ∃ h, vector_at v i = Except.ok h := by
  have hn : i.toNat < v.length := by omega
  have hneg : ¬ i < 0 := by omega
  refine ⟨v[i.toNat], ?_⟩
  simp [vector_at, hneg, List.getElem?_eq_getElem hn]

theorem vector_at_of_neg {H : Type} (v : List H) (i : Int) (hneg : i < 0) :
    vector_at v i = Except.error cache_error.index_out_of_bounds := by
  simp [vector_at, hneg]

/-! ## texture_cache -/

namespace texture_cache

variable {H : Type}

theorem add_all_append (c : texture_cache H) (xs ys : List (H × String)) :
    add_all c (xs ++ ys) = add_all (add_all c xs) ys := by
  induction xs generalizing c with
  | nil => rfl
  | cons x rest ih =>
    obtain ⟨h, id⟩ := x
    simp [add_all, ih]

theorem reachable_empty : reachable (empty : texture_cache H) :=
  ⟨[], rfl⟩

theorem reachable_add_texture {c : texture_cache H} (hc : reachable c) (h : H)
    (id : String) : reachable (c.add_texture h id) := by
  obtain ⟨calls, rfl⟩ := hc
  exact ⟨calls ++ [(h, id)], by simp [add_all_append, add_all]⟩

theorem lookup_add_texture (s : texture_cache H) (h : H) (id : String) :
    (s.add_texture h id).texture_lookup_
      = map_assign s.texture_lookup_ id (int_of_size_t s.textures_.length) := rfl

theorem textures_add_texture (s : texture_cache H) (h : H) (id : String) :
    (s.add_texture h id).textures_ = s.textures_ ++ [h] := rfl

theorem textures_length_add_texture (s : texture_cache H) (h : H) (id : String) :
    (s.add_texture h id).textures_.length = s.textures_.length + 1 := by
  simp [add_texture]

theorem textures_add_all (s : texture_cache H) (calls : List (H × String)) :
    (add_all s calls).textures_ = s.textures_ ++ calls.map Prod.fst := by
  induction calls generalizing s with
  | nil => simp [add_all]
  | cons x rest ih =>
    obtain ⟨h, id⟩ := x
    simp [add_all, ih, add_texture]

theorem exists_add_texture_same (c : texture_cache H) (h : H) (id : String) :
    (c.add_texture h id).exists id = true := by
  simp [texture_cache.exists, add_texture, map_find_assign_same]

theorem get_texture_add_texture_same (c : texture_cache H) (h : H) (id : String)
    (hsize : c.textures_.length < 2147483648) :
    (c.add_texture h id).get_texture id = Except.ok h := by
  simp only [get_texture, add_texture, map_find_assign_same,
    int_of_size_t_of_lt c.textures_.length hsize]
  exact vector_at_append_last c.textures_ h

theorem get_texture_add_texture_wrapped (c : texture_cache H) (h : H) (id : String)
    (hneg : int_of_size_t c.textures_.length < 0) :
    (c.add_texture h id).get_texture id = Except.error cache_error.index_out_of_bounds := by
  simp only [get_texture, add_texture, map_find_assign_same]
  exact vector_at_of_neg _ _ hneg

theorem exists_add_texture_other (c : texture_cache H) (h : H) (id k : String)
    (hne : k ≠ id) : (c.add_texture h id).exists k = c.exists k := by
  simp [texture_cache.exists, add_texture, map_find_assign_other _ _ _ _ hne]

/-- Whatever the number of handles, a stored index is below the number of handles. -/
theorem lookup_below_size_add_texture (c : texture_cache H)
    (hc : ∀ p ∈ c.texture_lookup_, p.2 < (c.textures_.length : Int))
    (h : H) (id : String) :
    ∀ p ∈ (c.add_texture h id).texture_lookup_,
      p.2 < ((c.add_texture h id).textures_.length : Int) := by
  intro p hp
  rw [lookup_add_texture] at hp
  rw [textures_length_add_texture]
  rcases mem_map_assign hp with hp | hp
  · have := hc p hp
    push_cast
    omega
  · subst hp
    have := int_of_size_t_le c.textures_.length
    push_cast
    show int_of_size_t c.textures_.length < (c.textures_.length : Int) + 1
    omega

theorem lookup_below_size_add_all (c : texture_cache H)
    (hc : ∀ p ∈ c.texture_lookup_, p.2 < (c.textures_.length : Int))
    (calls : List (H × String)) :
    ∀ p ∈ (add_all c calls).texture_lookup_,
      p.2 < ((add_all c calls).textures_.length : Int) := by
  induction calls generalizing c with
  | nil => exact hc
  | cons x rest ih =>
    obtain ⟨h, id⟩ := x
    exact ih (c.add_texture h id) (lookup_below_size_add_texture c hc h id)

theorem lookup_below_size_of_reachable {c : texture_cache H} (hc : reachable c) :
    ∀ p ∈ c.texture_lookup_, p.2 < (c.textures_.length : Int) := by
  obtain ⟨calls, rfl⟩ := hc
  exact lookup_below_size_add_all empty (by simp [empty]) calls

/-- Below 2^31 handles the stored index is the position: it is in bounds. -/
theorem lookup_in_bounds_add_texture (c : texture_cache H)
    (hc : ∀ p ∈ c.texture_lookup_, 0 ≤ p.2 ∧ p.2 < (c.textures_.length : Int))
    (hsize : c.textures_.length < 2147483648) (h : H) (id : String) :
    ∀ p ∈ (c.add_texture h id).texture_lookup_,
      0 ≤ p.2 ∧ p.2 < ((c.add_texture h id).textures_.length : Int) := by
  intro p hp
  rw [lookup_add_texture, int_of_size_t_of_lt _ hsize] at hp
  rw [textures_length_add_texture]
  rcases mem_map_assign hp with hp | hp
  · have := hc p hp
    constructor
    · exact this.1
    · push_cast
      omega
  · subst hp
    simp

theorem lookup_in_bounds_add_all (c : texture_cache H)
    (hc : ∀ p ∈ c.texture_lookup_, 0 ≤ p.2 ∧ p.2 < (c.textures_.length : Int))
    (calls : List (H × String)) (hlen : c.textures_.length + calls.length ≤ 2147483648) :
    ∀ p ∈ (add_all c calls).texture_lookup_,
      0 ≤ p.2 ∧ p.2 < ((add_all c calls).textures_.length : Int) := by
  induction calls generalizing c with
  | nil => exact hc
  | cons x rest ih =>
    obtain ⟨h, id⟩ := x
    simp only [List.length_cons] at hlen
    apply ih (c.add_texture h id) (lookup_in_bounds_add_texture c hc (by omega) h id)
    rw [textures_length_add_texture]
    omega

theorem lookup_in_bounds_of_reachable {c : texture_cache H} (hc : reachable c)
    (hsize : c.textures_.length ≤ 2147483648) :
    ∀ p ∈ c.texture_lookup_, 0 ≤ p.2 ∧ p.2 < (c.textures_.length : Int) := by
  obtain ⟨calls, rfl⟩ := hc
  apply lookup_in_bounds_add_all empty (by simp [empty]) calls
  rw [textures_add_all] at hsize
  simpa [empty] using hsize

theorem exists_add_all (c : texture_cache H) (calls : List (H × String)) (K : String) :
    (add_all c calls).exists K = true ↔ (c.exists K = true ∨ ∃ h, (h, K) ∈ calls) := by
  induction calls generalizing c with
  | nil => simp [add_all]
  | cons x rest ih =>
    obtain ⟨h, id⟩ := x
    simp only [add_all, ih, List.mem_cons, Prod.mk.injEq]
    by_cases hk : K = id
    · subst hk
      simp [exists_add_texture_same]
    · rw [exists_add_texture_other c h id K hk]
      constructor
      · rintro (h1 | ⟨h', h2⟩)
        · exact Or.inl h1
        · exact Or.inr ⟨h', Or.inr h2⟩
      · rintro (h1 | ⟨h', h2 | h2⟩)
        · exact Or.inl h1
        · exact absurd h2.2 hk
        · exact Or.inr ⟨h', h2⟩

theorem get_texture_of_lookup_in_bounds (c : texture_cache H)
    (hc : ∀ p ∈ c.texture_lookup_, 0 ≤ p.2 ∧ p.2 < (c.textures_.length : Int))
    (K : String) (hK : c.exists K = true) : ∃ h, c.get_texture K = Except.ok h := by
  simp only [texture_cache.exists, Option.isSome_iff_exists] at hK
  obtain ⟨i, hi⟩ := hK
  have hb := hc (K, i) (mem_of_map_find hi)
  obtain ⟨h, hh⟩ := vector_at_ok_of_lt c.textures_ i hb.1 hb.2
  exact ⟨h, by simp [get_texture, hi, hh]⟩

theorem get_texture_of_not_exists (c : texture_cache H) (K : String)
    (hK : c.exists K = false) : c.get_texture K = Except.error cache_error.out_of_range := by
  simp only [texture_cache.exists] at hK
  cases hm : map_find c.texture_lookup_ K with
  | none => simp [get_texture, hm]
  | some i => simp [hm] at hK

theorem get_texture_add_texture_other (c : texture_cache H)
    (hc : ∀ p ∈ c.texture_lookup_, p.2 < (c.textures_.length : Int))
    (h : H) (id k : String) (hne : k ≠ id) :
    (c.add_texture h id).get_texture k = c.get_texture k := by
  simp only [get_texture, add_texture, map_find_assign_other _ _ _ _ hne]
  cases hm : map_find c.texture_lookup_ k with
  | none => rfl
  | some i =>
    have hb := hc (k, i) (mem_of_map_find hm)
    exact vector_at_append_of_lt c.textures_ h i hb

/-- The cache after `n + 1` calls of `add_texture` with one handle and one key:
`n + 1` handles, and the key holds the converted position `n` of the last. -/
theorem add_all_replicate (h : H) (K : String) (n : Nat) :
    add_all empty (List.replicate (n + 1) (h, K))
      = ⟨List.replicate (n + 1) h, [(K, int_of_size_t n)]⟩ := by
  induction n with
  | zero => rfl
  | succ n ih =>
    rw [List.replicate_succ' (n + 1), add_all_append, ih]
    simp only [add_all, add_texture, List.length_replicate, map_assign, if_true]
    rw [← List.replicate_succ' (n + 1) h]

theorem textures_length_add_all_replicate (h : H) (K : String) (n : Nat) :
    (add_all empty (List.replicate (n + 1) (h, K))).textures_.length = n + 1 := by
  rw [add_all_replicate]
  exact List.length_replicate _ _

end texture_cache

/-! ## program_cache -/

theorem program_cache.exists_add_program {H : Type} (c : program_cache H) (h : H)
    (id k : String) : (c.add_program h id).exists k = c.exists k := rfl

/-! ## material_cache -/

namespace material_cache

variable {M : Type}

theorem add_all_snd (w : Nat) (c : material_cache M) (ms : List M) :
    (add_all w c ms).2 = ⟨c.materials_ ++ ms⟩ := by
  induction ms generalizing c with
  | nil => simp [add_all]
  | cons t rest ih => simp [add_all, ih, add_material]

theorem add_all_fst (w : Nat) (c : material_cache M) (ms : List M) :
    (add_all w c ms).1
      = (List.range ms.length).map (fun i => material_handle w (c.materials_.length + i)) := by
  induction ms generalizing c with
  | nil => simp [add_all]
  | cons t rest ih =>
    simp only [add_all, ih, List.length_cons, List.range_succ_eq_map, List.map_cons,
      List.map_map]
    simp only [add_material, List.length_append, List.length_singleton, Nat.add_zero]
    congr 1
    apply List.map_congr_left
    intro i _
    simp only [Function.comp, Nat.succ_eq_add_one]
    congr 1
    omega

theorem add_material_invalid_when_full (w : Nat) (c : material_cache M) (t : M)
    (hfull : c.materials_.length = material_handle_max w) :
    (add_material w c t).1 = material_handle_max w := by
  have hpos : 0 < 2 ^ w := Nat.pow_pos (by decide)
  simp only [add_material, material_handle, hfull, material_handle_max]
  exact Nat.mod_eq_of_lt (by omega)

end material_cache

/-! ## Command lists and submission -/

theorem record_from_commands (index : Nat) (target : Option Nat) (list : List Command) :
    (record_from index target list).map (fun r => r.command) = list := by
  induction list generalizing index target with
  | nil => rfl
  | cons c rest ih => simp [record_from, ih]

theorem getElem?_append_of_some {α : Type} (l r : List α) (i : Nat) (a : α)
    (h : l[i]? = some a) : (l ++ r)[i]? = some a := by
  have hlt : i < l.length := by
    by_contra hge
    rw [List.getElem?_eq_none (by omega)] at h
    cases h
  rw [List.getElem?_append_left hlt]
  exact h

theorem insert_command_split (key : recorded_command → Nat) (x : recorded_command)
    (s : List recorded_command) :
    ∃ s1 s2, s = s1 ++ s2 ∧ insert_command key x s = s1 ++ x :: s2 ∧
      ∀ y ∈ s1, conflict x.command y.command = false := by
  induction s with
  | nil => exact ⟨[], [], rfl, rfl, by simp⟩
  | cons y rest ih =>
    by_cases hc : key y < key x ∧ conflict x.command y.command = false
    · obtain ⟨s1, s2, h1, h2, h3⟩ := ih
      refine ⟨y :: s1, s2, by simp [h1], by simp [insert_command, hc, h2], ?_⟩
      intro z hz
      rcases List.mem_cons.mp hz with hz | hz
      · subst hz
        exact hc.2
      · exact h3 z hz
    · exact ⟨[], y :: rest, rfl, by simp [insert_command, hc], by simp⟩

theorem conflict_symm (a b : Command) : conflict a b = conflict b a := by
  simp only [conflict, Bool.or_comm]

namespace graphics_device

variable {B : Type}

end graphics_device

/-! ### The sort leaves the result of the backend as it is -/

theorem backend_run_pair {B : Type} (be : backend B) (b : B) (x y : Command)
    (rest : List Command) :
    be.run b (x :: y :: rest)
      = match be.run b [x, y] with
        | Except.error reason => Except.error reason
        | Except.ok b' => be.run b' rest := by
  simp only [backend.run]
  cases be.visit b x with
  | error reason => rfl
  | ok b1 =>
    simp only
    cases be.visit b1 y <;> rfl

theorem backend_run_move {B : Type} (be : backend B)
    (hcomm : ∀ (b : B) (x y : Command), conflict x y = false →
      be.run b [x, y] = be.run b [y, x])
    (x : Command) (s1 s2 : List Command) (h : ∀ y ∈ s1, conflict x y = false) (b : B) :
    be.run b (x :: (s1 ++ s2)) = be.run b (s1 ++ x :: s2) := by
  induction s1 generalizing b with
  | nil => rfl
  | cons y rest ih =>
    have hxy := h y (List.mem_cons_self _ _)
    have hrest : ∀ z ∈ rest, conflict x z = false :=
      fun z hz => h z (List.mem_cons_of_mem _ hz)
    rw [List.cons_append, backend_run_pair, hcomm b x y hxy, ← backend_run_pair]
    simp only [backend.run]
    cases be.visit b y with
    | error reason => rfl
    | ok b1 => exact ih hrest b1

/-- On every backend on which two commands without an ordering dependency can be
executed in either order with the same result, executing the sorted list gives
what executing the recorded list gives: the same state, or the same failure. -/
theorem sort_commands_preserves_backend_result {B : Type} (be : backend B)
    (hcomm : ∀ (b : B) (x y : Command), conflict x y = false →
      be.run b [x, y] = be.run b [y, x])
    (key : recorded_command → Nat) (l : List recorded_command) (b : B) :
    be.run b ((sort_commands key l).map (fun r => r.command))
      = be.run b (l.map (fun r => r.command)) := by
  induction l generalizing b with
  | nil => rfl
  | cons x rest ih =>
    obtain ⟨s1, s2, h1, h2, h3⟩ := insert_command_split key x (sort_commands key rest)
    simp only [sort_commands, h2, List.map_append, List.map_cons]
    rw [← backend_run_move be hcomm x.command (s1.map (fun r => r.command))
      (s2.map (fun r => r.command)) (by
        intro y hy
        obtain ⟨r, hr, rfl⟩ := List.mem_map.mp hy
        exact h3 r hr) b]
    rw [← List.map_append, ← h1]
    simp only [backend.run]
    cases be.visit b x.command with
    | error reason => rfl
    | ok b1 => exact ih b1

theorem graphics_device.dispatch_all_run {B : Type} (be : backend B) (b : B)
    (l : List Command) :
    (∀ b', be.run b l = Except.ok b' →
      (graphics_device.dispatch_all be b l).error = none ∧
      (graphics_device.dispatch_all be b l).state = b') ∧
    (∀ reason, be.run b l = Except.error reason →
      ∃ k, (graphics_device.dispatch_all be b l).error = some ⟨k, reason⟩) := by
  induction l generalizing b with
  | nil =>
    constructor
    · intro b' h
      simp only [backend.run, Except.ok.injEq] at h
      exact ⟨rfl, h⟩
    · intro reason h
      simp [backend.run] at h
  | cons c rest ih =>
    simp only [backend.run, graphics_device.dispatch_all]
    cases hv : be.visit b c with
    | error reason =>
      constructor
      · intro b' h
        cases h
      · intro reason' h
        simp only [Except.error.injEq] at h
        exact ⟨c.kind, by rw [h]⟩
    | ok b1 => exact ih b1

/-- On such a backend a sorted submission succeeds exactly when the unsorted one
does, with the same backend state, and fails with the same reason otherwise. -/
theorem submit_sorted_same_backend_result {B : Type} (be : backend B)
    (hcomm : ∀ (b : B) (x y : Command), conflict x y = false →
      be.run b [x, y] = be.run b [y, x])
    (key : recorded_command → Nat) (b : B) (list : List Command) :
    be.run b ((graphics_device.dispatch_order key list true).map (fun r => r.command))
      = be.run b list ∧
    ((graphics_device.submit key be b list false).error = none →
      (graphics_device.submit key be b list true).error = none ∧
      (graphics_device.submit key be b list true).state
        = (graphics_device.submit key be b list false).state) ∧
    (∀ e, (graphics_device.submit key be b list false).error = some e →
      ∃ k, (graphics_device.submit key be b list true).error = some ⟨k, e.reason⟩) := by
  have hrec : (record list).map (fun r => r.command) = list := record_from_commands 0 none list
  have hrun : be.run b
      ((graphics_device.dispatch_order key list true).map (fun r => r.command))
      = be.run b list := by
    simp only [graphics_device.dispatch_order, if_true]
    rw [sort_commands_preserves_backend_result be hcomm key (record list) b, hrec]
  have hfalse : graphics_device.submit key be b list false
      = graphics_device.dispatch_all be b list := by
    simp only [graphics_device.submit, graphics_device.dispatch_order]
    rw [show (if false = true then sort_commands key (record list) else record list)
      = record list from rfl, hrec]
  have hsorted := graphics_device.dispatch_all_run be b
    ((graphics_device.dispatch_order key list true).map (fun r => r.command))
  have hplain := graphics_device.dispatch_all_run be b list
  rw [hrun] at hsorted
  refine ⟨hrun, ?_, ?_⟩
  · intro hok
    rw [hfalse] at hok ⊢
    cases hr : be.run b list with
    | error reason =>
      obtain ⟨k, hk⟩ := hplain.2 reason hr
      rw [hk] at hok
      cases hok
    | ok b' =>
      obtain ⟨h1, h2⟩ := hsorted.1 b' hr
      obtain ⟨_, h4⟩ := hplain.1 b' hr
      exact ⟨h1, h2.trans h4.symm⟩
  · intro e he
    rw [hfalse] at he
    cases hr : be.run b list with
    | error reason =>
      obtain ⟨k, hk⟩ := hplain.2 reason hr
      rw [hk] at he
      obtain ⟨k', hk'⟩ := hsorted.2 reason hr
      refine ⟨k', ?_⟩
      rw [← Option.some.inj he]
      exact hk'
    | ok b' =>
      rw [(hplain.1 b' hr).1] at he
      cases he

/-- The backend of the examples that accepts every command is such a backend: its
state only counts the commands. -/
theorem counting_backend_commutes (b : Nat) (x y : Command) :
    (counting_backend []).run b [x, y] = (counting_backend []).run b [y, x] := by
  simp [backend.run, counting_backend]

/-- The sort does reorder: of two draws from one vertex buffer recorded with the
materials 9 and 2, the one with the smaller key, its material, is dispatched
first. -/
theorem sort_commands_groups_independent_draws :
    (graphics_device.submit
      (fun r => match r.command with
        | Command.Draw _ mat _ _ _ => mat
        | _ => 0)
      (counting_backend []) 0
      [Command.Draw 1 9 3 none none, Command.Draw 1 2 3 none none] true).calls
    = [backend_call.visit (Command.Draw 1 2 3 none none),
       backend_call.visit (Command.Draw 1 9 3 none none)] := by
  decide

/-- A frame-buffer bind stays between the clear before it and the draw after it,
whatever the keys. -/
theorem sort_commands_keeps_bind_between_clear_and_draw (key : recorded_command → Nat) :
    graphics_device.dispatch_order key
      [Command.Clear (0, 0, 0, 1) true true, Command.FrameBuffer 1,
       Command.Draw 1 2 3 none none] true
    = record [Command.Clear (0, 0, 0, 1) true true, Command.FrameBuffer 1,
       Command.Draw 1 2 3 none none] := by
  simp [graphics_device.dispatch_order, record, record_from, next_target, sort_commands,
    insert_command, conflict, hazard, reads, writes, accumulates]

/-- A change of material parameters stays before the draw with that material,
whatever the keys. -/
theorem sort_commands_keeps_material_parameters_before_draw (key : recorded_command → Nat) :
    graphics_device.dispatch_order key
      [Command.SetMaterialParameters 2 [("tint", 1)], Command.Draw 1 2 3 none none] true
    = record [Command.SetMaterialParameters 2 [("tint", 1)], Command.Draw 1 2 3 none none] := by
  simp [graphics_device.dispatch_order, record, record_from, next_target, sort_commands,
    insert_command, conflict, hazard, reads, writes, accumulates]

/-! ## Claims on texture_cache and program_cache -/

/-- C2, evaluated on the code: add_program on the empty program_cache appends the
handle to the sequence, but the key is not indexed: exists(K) is false and
get_program(K) throws out_of_range. -/
theorem program_cache_add_program_leaves_key_unindexed :
    ((program_cache.empty : program_cache Nat).add_program 7 "phong").shaders_ = [7] ∧
    ((program_cache.empty : program_cache Nat).add_program 7 "phong").exists "phong" = false ∧
    ((program_cache.empty : program_cache Nat).add_program 7 "phong").get_program "phong"
      = Except.error cache_error.out_of_range :=
  ⟨by decide, by decide, rfl⟩

/-- C6, refuted as stated: after 2^31 + 1 calls of add_texture with one key the
lookup map holds the value -2^31 for it, which is not an index into the 2^31 + 1
stored handles. -/
theorem texture_cache_lookup_value_negative_at_int_wrap :
    (texture_cache.add_all (texture_cache.empty : texture_cache Nat)
      (List.replicate (2147483648 + 1) (0, "k"))).texture_lookup_ = [("k", -2147483648)] ∧
    (texture_cache.add_all (texture_cache.empty : texture_cache Nat)
      (List.replicate (2147483648 + 1) (0, "k"))).textures_.length = 2147483648 + 1 := by
  refine ⟨?_, texture_cache.textures_length_add_all_replicate _ _ _⟩
  rw [texture_cache.add_all_replicate]
  have hval : int_of_size_t 2147483648 = -2147483648 := by
    unfold int_of_size_t
    omega
  simp only [hval]

/-- C6, amended (cache invariant up to 2^31 handles). In every texture_cache state
reached from the empty cache by a sequence of at most 2^31 add_texture calls,
repeated keys included, every value stored in texture_lookup_ is an index i
with 0 <= i < textures_.size(); hence get_texture returns a handle for every
key that exists and never indexes the sequence out of bounds. -/
theorem texture_cache_lookup_values_in_bounds {H : Type} (calls : List (H × String))
    (hlen : calls.length ≤ 2147483648) :
    (∀ p ∈ (texture_cache.add_all texture_cache.empty calls).texture_lookup_,
      0 ≤ p.2 ∧
      p.2 < ((texture_cache.add_all texture_cache.empty calls).textures_.length : Int)) ∧
    (∀ K : String,
      (texture_cache.add_all texture_cache.empty calls).exists K = true →
      ∃ h, (texture_cache.add_all texture_cache.empty calls).get_texture K = Except.ok h) ∧
    (∀ K : String,
      (texture_cache.add_all texture_cache.empty calls).get_texture K
        ≠ Except.error cache_error.index_out_of_bounds) := by
  have hb := texture_cache.lookup_in_bounds_add_all (texture_cache.empty : texture_cache H)
    (by simp [texture_cache.empty]) calls (by simpa [texture_cache.empty] using hlen)
  refine ⟨hb, fun K hK => texture_cache.get_texture_of_lookup_in_bounds _ hb K hK, ?_⟩
  intro K
  cases hK : (texture_cache.add_all texture_cache.empty calls).exists K with
  | true =>
    obtain ⟨h, hh⟩ := texture_cache.get_texture_of_lookup_in_bounds _ hb K hK
    rw [hh]
    exact fun e => by cases e
  | false =>
    rw [texture_cache.get_texture_of_not_exists _ K hK]
    exact fun e => by cases e

/-- Witness of C6 amended: three add_texture calls, the key "brick" used twice. -/
theorem texture_cache_lookup_values_in_bounds_witness :
    [((7 : Nat), "brick"), (8, "grass"), (9, "brick")].length ≤ 2147483648 ∧
    (∀ p ∈ (texture_cache.add_all (texture_cache.empty : texture_cache Nat)
        [(7, "brick"), (8, "grass"), (9, "brick")]).texture_lookup_,
      0 ≤ p.2 ∧
      p.2 < ((texture_cache.add_all (texture_cache.empty : texture_cache Nat)
        [(7, "brick"), (8, "grass"), (9, "brick")]).textures_.length : Int)) :=
  ⟨by decide,
    (texture_cache_lookup_values_in_bounds
      [((7 : Nat), "brick"), (8, "grass"), (9, "brick")] (by decide)).1⟩

/-- C7, refuted as stated: after 2^31 + 1 calls of add_texture with the key "k",
exists("k") is true but get_texture("k") does not return a handle: the stored
int is negative and the access is out of bounds. -/
theorem texture_cache_hit_fails_at_int_wrap :
    (texture_cache.add_all (texture_cache.empty : texture_cache Nat)
      (List.replicate (2147483648 + 1) (0, "k"))).exists "k" = true ∧
    (texture_cache.add_all (texture_cache.empty : texture_cache Nat)
      (List.replicate (2147483648 + 1) (0, "k"))).get_texture "k"
      = Except.error cache_error.index_out_of_bounds := by
  rw [texture_cache.add_all_replicate]
  constructor
  · simp [texture_cache.exists, map_find]
  · simp only [texture_cache.get_texture, map_find, if_true]
    exact vector_at_of_neg _ _ (int_of_size_t_neg_of_half _ (by omega) (by omega))

/-- C7, amended (cache miss fails fast). In the cache reached from the empty one by
a sequence of add_texture calls: exists(K) is true exactly when one of the calls
used the key K; when exists(K) is false, get_texture(K) fails with
out_of_range, returns no handle, and leaves the cache unchanged; when exists(K)
is true and the sequence has at most 2^31 calls, get_texture(K) returns a
handle. -/
theorem texture_cache_miss_fails_fast {H : Type} (calls : List (H × String)) (K : String) :
    ((texture_cache.add_all texture_cache.empty calls).exists K = true ↔
      ∃ h, (h, K) ∈ calls) ∧
    (calls.length ≤ 2147483648 →
      (texture_cache.add_all texture_cache.empty calls).exists K = true →
      ∃ h, (texture_cache.add_all texture_cache.empty calls).get_texture K = Except.ok h) ∧
    ((texture_cache.add_all texture_cache.empty calls).exists K = false →
      (texture_cache.add_all texture_cache.empty calls).get_texture K
        = Except.error cache_error.out_of_range ∧
      (texture_cache.add_all texture_cache.empty calls).step (texture_cache.call.get_texture K)
        = (texture_cache.add_all texture_cache.empty calls,
           texture_cache.outcome.failed cache_error.out_of_range)) := by
  refine ⟨?_, ?_, ?_⟩
  · rw [texture_cache.exists_add_all]
    simp [texture_cache.exists, texture_cache.empty, map_find]
  · intro hlen hK
    have hb := texture_cache.lookup_in_bounds_add_all (texture_cache.empty : texture_cache H)
      (by simp [texture_cache.empty]) calls (by simpa [texture_cache.empty] using hlen)
    exact texture_cache.get_texture_of_lookup_in_bounds _ hb K hK
  · intro hK
    have hg := texture_cache.get_texture_of_not_exists _ K hK
    exact ⟨hg, by simp [texture_cache.step, hg, texture_cache.outcome_of]⟩

/-- Witness of C7 amended: two add_texture calls, then a hit on "brick". -/
theorem texture_cache_miss_fails_fast_witness :
    [((7 : Nat), "brick"), (8, "grass")].length ≤ 2147483648 ∧
    (texture_cache.add_all (texture_cache.empty : texture_cache Nat)
      [(7, "brick"), (8, "grass")]).exists "brick" = true ∧
    ∃ h, (texture_cache.add_all (texture_cache.empty : texture_cache Nat)
      [(7, "brick"), (8, "grass")]).get_texture "brick" = Except.ok h :=
  ⟨by decide, by decide,
    (texture_cache_miss_fails_fast [((7 : Nat), "brick"), (8, "grass")] "brick").2.1
      (by decide) (by decide)⟩

/-- C10 (no eviction). In a reachable texture_cache, for distinct keys K and K'
and any handle h', add_texture(h', K') leaves exists(K) and get_texture(K) as
they were, increases the number of stored handles by exactly one, and keeps
every stored handle at its position. -/
theorem texture_cache_no_eviction {H : Type} (c : texture_cache H) (hc : c.reachable)
    (K K' : String) (hne : K ≠ K') (h' : H) :
    (c.add_texture h' K').exists K = c.exists K ∧
    (c.add_texture h' K').get_texture K = c.get_texture K ∧
    (c.add_texture h' K').textures_.length = c.textures_.length + 1 ∧
    ∀ i, i < c.textures_.length → (c.add_texture h' K').textures_[i]? = c.textures_[i]? := by
  refine ⟨texture_cache.exists_add_texture_other c h' K' K hne,
    texture_cache.get_texture_add_texture_other c
      (texture_cache.lookup_below_size_of_reachable hc) h' K' K hne, ?_, ?_⟩
  · simp [texture_cache.add_texture]
  · intro i hi
    simp [texture_cache.add_texture, List.getElem?_append_left hi]

/-- Witness of C10: the cache holding handle 7 under "brick", then
add_texture(9, "grass"). -/
theorem texture_cache_no_eviction_witness :
    ((texture_cache.empty : texture_cache Nat).add_texture 7 "brick").reachable ∧
    "brick" ≠ "grass" ∧
    ((((texture_cache.empty : texture_cache Nat).add_texture 7 "brick").add_texture 9
        "grass").get_texture "brick"
      = ((texture_cache.empty : texture_cache Nat).add_texture 7 "brick").get_texture "brick") :=
  ⟨texture_cache.reachable_add_texture texture_cache.reachable_empty 7 "brick", by decide,
    (texture_cache_no_eviction ((texture_cache.empty : texture_cache Nat).add_texture 7 "brick")
      (texture_cache.reachable_add_texture texture_cache.reachable_empty 7 "brick")
      "brick" "grass" (by decide) 9).2.1⟩

/-! ## Claims on submission and the visitor -/

/-- C5 (closed dispatcher). The graphics_visitor declares ten visit operations, no
two for the same class; each of the ten Command variants of the data model
selects exactly one of them, the one that takes its class, so dispatch is total;
distinct variants select distinct operations; and every operation is the one
selected by some variant, so there is none for any other type. -/
theorem graphics_visitor_closed_dispatch :
    graphics_visitor.visit_operations.length = 10 ∧
    graphics_visitor.visit_operations.Nodup ∧
    (command_kind.all.length = 10 ∧ command_kind.all.Nodup ∧
      ∀ k : command_kind, k ∈ command_kind.all) ∧
    (∀ k : command_kind, ∃ i : Nat,
      graphics_visitor.candidates k.class_name = [i] ∧
      graphics_visitor.dispatch k = some i ∧
      graphics_visitor.visit_operations[i]? = some k.class_name) ∧
    (∀ k k' : command_kind,
      graphics_visitor.dispatch k = graphics_visitor.dispatch k' → k = k') ∧
    (∀ i : Nat, i < graphics_visitor.visit_operations.length →
      ∃ k : command_kind, graphics_visitor.dispatch k = some i) ∧
    (∀ cls : String, cls ∈ graphics_visitor.visit_operations ↔
      cls ∈ forward_declared_commands) := by
  refine ⟨by decide, by decide, ⟨by decide, by decide, ?_⟩, ?_, ?_, ?_, ?_⟩
  · intro k
    cases k <;> decide
  · intro k
    cases k
    · exact ⟨0, by decide, by decide, by decide⟩
    · exact ⟨1, by decide, by decide, by decide⟩
    · exact ⟨2, by decide, by decide, by decide⟩
    · exact ⟨3, by decide, by decide, by decide⟩
    · exact ⟨4, by decide, by decide, by decide⟩
    · exact ⟨5, by decide, by decide, by decide⟩
    · exact ⟨6, by decide, by decide, by decide⟩
    · exact ⟨7, by decide, by decide, by decide⟩
    · exact ⟨8, by decide, by decide, by decide⟩
    · exact ⟨9, by decide, by decide, by decide⟩
  · intro k k' h
    cases k <;> cases k' <;> first | rfl | (exact absurd h (by decide))
  · intro i hi
    have hi' : i < 10 := hi
    interval_cases i
    · exact ⟨command_kind.Clear, by decide⟩
    · exact ⟨command_kind.Draw, by decide⟩
    · exact ⟨command_kind.Viewport, by decide⟩
    · exact ⟨command_kind.Scissor, by decide⟩
    · exact ⟨command_kind.FillVertexBuffer, by decide⟩
    · exact ⟨command_kind.FillIndexBuffer, by decide⟩
    · exact ⟨command_kind.FrameBuffer, by decide⟩
    · exact ⟨command_kind.FrameBufferTexture, by decide⟩
    · exact ⟨command_kind.GenerateMipmaps, by decide⟩
    · exact ⟨command_kind.SetMaterialParameters, by decide⟩
  · intro cls
    simp only [graphics_visitor.visit_operations, forward_declared_commands, List.mem_cons,
      List.mem_singleton]
    tauto

/-! ## Claims on material_cache -/

/-- C8, refuted as stated, for a 16-bit handle type: add_material on the cache that
already holds 65535 materials returns the invalid value 65535, and the first
and the 65537th add_material call on one cache return the same handle 0. -/
theorem material_cache_issues_invalid_and_repeated_handle :
    (material_cache.add_material 16
        (material_cache.add_all 16 (material_cache.empty : material_cache Unit)
          (List.replicate 65535 ())).2 ()).1 = material_handle_max 16 ∧
    (material_cache.add_material 16 (material_cache.empty : material_cache Unit) ()).1
      = (material_cache.add_material 16
          (material_cache.add_all 16 (material_cache.empty : material_cache Unit)
            (List.replicate 65536 ())).2 ()).1 := by
  have hfull : ((material_cache.add_all 16 (material_cache.empty : material_cache Unit)
      (List.replicate 65535 ())).2).materials_.length = material_handle_max 16 := by
    rw [material_cache.add_all_snd]
    show (material_cache.empty.materials_ ++ List.replicate 65535 ()).length = 2 ^ 16 - 1
    rw [List.length_append, List.length_replicate]
    rfl
  have hwrap : ((material_cache.add_all 16 (material_cache.empty : material_cache Unit)
      (List.replicate 65536 ())).2).materials_.length = 65536 := by
    rw [material_cache.add_all_snd]
    show (material_cache.empty.materials_ ++ List.replicate 65536 ()).length = 65536
    rw [List.length_append, List.length_replicate]
    rfl
  constructor
  · exact material_cache.add_material_invalid_when_full 16 _ () hfull
  · show material_handle 16 (material_cache.empty : material_cache Unit).materials_.length
      = material_handle 16 ((material_cache.add_all 16
          (material_cache.empty : material_cache Unit)
          (List.replicate 65536 ())).2).materials_.length
    rw [hwrap]
    rfl

/-- C8, amended: with a handle type of w bits and the invalid value 2^w - 1, for
every cache state and every sequence of add_material calls after which the
cache holds at most 2^w - 1 materials, every handle returned differs from the
invalid value and the handles returned are pairwise different. -/
theorem material_cache_handles_valid_and_distinct {M : Type} (w : Nat)
    (c : material_cache M) (ms : List M)
    (hroom : c.materials_.length + ms.length ≤ material_handle_max w) :
    (∀ h ∈ (material_cache.add_all w c ms).1, h ≠ material_handle_max w) ∧
    (material_cache.add_all w c ms).1.Nodup := by
  simp only [material_handle_max] at hroom
  have hmod : ∀ i, i < ms.length →
      material_handle w (c.materials_.length + i) = c.materials_.length + i := by
    intro i hi
    exact Nat.mod_eq_of_lt (by omega)
  rw [material_cache.add_all_fst]
  constructor
  · intro h hh
    simp only [List.mem_map, List.mem_range] at hh
    obtain ⟨i, hi, rfl⟩ := hh
    rw [hmod i hi]
    simp only [material_handle_max]
    omega
  · apply (List.nodup_range _).map_on
    intro x hx y hy hxy
    rw [hmod x (List.mem_range.mp hx), hmod y (List.mem_range.mp hy)] at hxy
    omega

/-- Witness of C8 amended: an 8-bit handle type, the empty cache and three
add_material calls. -/
theorem material_cache_handles_valid_and_distinct_witness :
    (material_cache.empty : material_cache Nat).materials_.length + [10, 20, 30].length
      ≤ material_handle_max 8 ∧
    (∀ h ∈ (material_cache.add_all 8 (material_cache.empty : material_cache Nat)
        [10, 20, 30]).1, h ≠ material_handle_max 8) ∧
    (material_cache.add_all 8 (material_cache.empty : material_cache Nat) [10, 20, 30]).1.Nodup :=
  ⟨by decide,
    material_cache_handles_valid_and_distinct 8 (material_cache.empty : material_cache Nat)
      [10, 20, 30] (by decide)⟩

/-- C9 (material round trip). For a material_cache holding n materials, n below the
maximum 2^w - 1 of the handle type, and every material m: add_material(m) returns
the handle n, afterwards get_material(n) points to m stored at position n, and
get_material(h) for every h < n yields what it yielded before the insert. -/
theorem material_cache_round_trip {M : Type} (w : Nat) (c : material_cache M) (m : M)
    (hn : c.materials_.length < material_handle_max w) :
    (material_cache.add_material w c m).1 = c.materials_.length ∧
    material_cache.get_material w (material_cache.add_material w c m).2 c.materials_.length
      = material_ptr.element c.materials_.length m ∧
    ∀ h, h < c.materials_.length →
      material_cache.get_material w (material_cache.add_material w c m).2 h
        = material_cache.get_material w c h ∧
      ∃ m', material_cache.get_material w c h = material_ptr.element h m' := by
  have hmax : c.materials_.length < 2 ^ w - 1 := by simpa [material_handle_max] using hn
  refine ⟨?_, ?_, ?_⟩
  · exact Nat.mod_eq_of_lt (by omega)
  · have hne : c.materials_.length ≠ material_handle_max w := Nat.ne_of_lt hn
    simp [material_cache.get_material, material_cache.add_material, hne]
  · intro h hh
    have hne : h ≠ material_handle_max w := by
      simp only [material_handle_max]
      omega
    constructor
    · simp [material_cache.get_material, material_cache.add_material,
        List.getElem?_append_left hh]
    · exact ⟨c.materials_[h], by
        simp [material_cache.get_material, hne, List.getElem?_eq_getElem hh]⟩

/-- Witness of C9: an 8-bit handle type, the cache holding the materials 10 and 20,
and the material 30. -/
theorem material_cache_round_trip_witness :
    (⟨[10, 20]⟩ : material_cache Nat).materials_.length < material_handle_max 8 ∧
    (material_cache.add_material 8 (⟨[10, 20]⟩ : material_cache Nat) 30).1 = 2 ∧
    material_cache.get_material 8
        (material_cache.add_material 8 (⟨[10, 20]⟩ : material_cache Nat) 30).2 2
      = material_ptr.element 2 30 :=
  ⟨by decide,
    (material_cache_round_trip 8 (⟨[10, 20]⟩ : material_cache Nat) 30 (by decide)).1,
    (material_cache_round_trip 8 (⟨[10, 20]⟩ : material_cache Nat) 30 (by decide)).2.1⟩

/-! ## Handles that are not live -/

/-- C11, refuted as stated, for a 16-bit handle type: on the cache holding two
materials, get_material(5), for the handle 5 that is neither issued nor the
invalid value, evaluates materials_[5] unchecked, outside the stored sequence:
the call is undefined behaviour, where the claim requires a null or an error in
place of that access. -/
theorem material_cache_out_of_range_handle_not_detected :
    (5 : Nat) ≠ material_handle_max 16 ∧
    (⟨[10, 20]⟩ : material_cache Nat).materials_.length ≤ 5 ∧
    material_cache.get_material 16 (⟨[10, 20]⟩ : material_cache Nat) 5
      = material_ptr.undefined_behaviour 5 := by
  decide

/-- C11, amended: for a material_cache holding n materials and every handle value
h, get_material(h) yields a stored material exactly when h < n and h is not the
invalid value 2^w - 1, and then it is the material at position h; for the
invalid value it yields null; for every other h >= n nothing is detected:
materials_[h] is evaluated outside the stored sequence, which is undefined
behaviour, and no result is guaranteed. -/
theorem material_cache_get_material_cases {M : Type} (w : Nat) (c : material_cache M)
    (h : Nat) :
    ((∃ m, material_cache.get_material w c h = material_ptr.element h m) ↔
      (h < c.materials_.length ∧ h ≠ material_handle_max w)) ∧
    (∀ m, material_cache.get_material w c h = material_ptr.element h m →
      c.materials_[h]? = some m) ∧
    (h = material_handle_max w → material_cache.get_material w c h = material_ptr.null) ∧
    (h ≠ material_handle_max w → c.materials_.length ≤ h →
      material_cache.get_material w c h = material_ptr.undefined_behaviour h) := by
  by_cases hmax : h = material_handle_max w
  · simp [material_cache.get_material, hmax]
  · by_cases hlt : h < c.materials_.length
    · have hget : c.materials_[h]? = some c.materials_[h] := List.getElem?_eq_getElem hlt
      simp [material_cache.get_material, hmax, hlt, hget]
    · have hnone : c.materials_[h]? = none := List.getElem?_eq_none (by omega)
      simp [material_cache.get_material, hmax, hlt, hnone]

/-! ## Subscriber ids -/

theorem connect_at_ids (category position : Nat) (objects : List event_subscriber) :
    (subscriber_world.connect_at category position objects).map (fun s => s.id_)
      = objects.map (fun s => s.id_) := by
  induction objects generalizing position with
  | nil => cases position <;> rfl
  | cons s rest ih =>
    cases position with
    | zero =>
      simp only [subscriber_world.connect_at, List.map_cons, subscriber_world.connect_object]
      split <;> rfl
    | succ n => simp [subscriber_world.connect_at, ih]

theorem step_keeps_ids_consecutive (w : subscriber_world) (q : subscriber_call)
    (hw : w.objects.map (fun s => s.id_) = List.range' 1 w.available_ids_) :
    (w.step q).objects.map (fun s => s.id_) = List.range' 1 (w.step q).available_ids_ := by
  cases q with
  | construct =>
    simp only [subscriber_world.step, subscriber_world.construct, List.map_append, hw,
      List.map_cons, List.map_nil, List.range'_concat]
    congr 2
    omega
  | connect position category =>
    simp only [subscriber_world.step, subscriber_world.connect, connect_at_ids]
    exact hw
  | notify position category => exact hw

theorem run_keeps_ids_consecutive (w : subscriber_world) (calls : List subscriber_call)
    (hw : w.objects.map (fun s => s.id_) = List.range' 1 w.available_ids_) :
    (w.run calls).objects.map (fun s => s.id_) = List.range' 1 (w.run calls).available_ids_ := by
  induction calls generalizing w with
  | nil => exact hw
  | cons q rest ih => exact ih (w.step q) (step_keeps_ids_consecutive w q hw)

theorem run_counter (w : subscriber_world) (calls : List subscriber_call) :
    (w.run calls).available_ids_
      = w.available_ids_ + calls.count subscriber_call.construct := by
  induction calls generalizing w with
  | nil => simp [subscriber_world.run]
  | cons q rest ih =>
    cases q with
    | construct =>
      simp only [subscriber_world.run, ih, subscriber_world.step, subscriber_world.construct,
        List.count_cons_self]
      omega
    | connect position category =>
      simp [subscriber_world.run, ih, subscriber_world.step, subscriber_world.connect]
    | notify position category =>
      simp [subscriber_world.run, ih, subscriber_world.step]

/-- C12 (subscriber ids are unique and monotonic). From the initial counter value
0, after any sequence of constructions, connect and notify calls with n
constructions: the k-th constructed subscriber has id k for k = 1..n, so the
first id is 1, none is 0, the ids increase strictly in construction order and
no two subscribers share one; the counter equals n, and no call ever makes it
smaller, from any state. -/
theorem subscriber_ids_unique_and_monotonic (calls : List subscriber_call) :
    ((subscriber_world.initial.run calls).objects.map (fun s => s.id_)
      = List.range' 1 (calls.count subscriber_call.construct)) ∧
    (∀ k : Nat, k < calls.count subscriber_call.construct →
      ((subscriber_world.initial.run calls).objects.map (fun s => s.id_))[k]? = some (k + 1)) ∧
    (0 ∉ (subscriber_world.initial.run calls).objects.map (fun s => s.id_)) ∧
    ((subscriber_world.initial.run calls).objects.map (fun s => s.id_)).Pairwise (· < ·) ∧
    ((subscriber_world.initial.run calls).objects.map (fun s => s.id_)).Nodup ∧
    (subscriber_world.initial.run calls).available_ids_
      = calls.count subscriber_call.construct ∧
    (∀ (w : subscriber_world) (more : List subscriber_call),
      w.available_ids_ ≤ (w.run more).available_ids_) := by
  have hcount : (subscriber_world.initial.run calls).available_ids_
      = calls.count subscriber_call.construct := by
    rw [run_counter]
    simp [subscriber_world.initial, available_ids_initial]
  have hids := run_keeps_ids_consecutive subscriber_world.initial calls (by
    simp [subscriber_world.initial, available_ids_initial])
  rw [hcount] at hids
  refine ⟨hids, ?_, ?_, ?_, ?_, hcount, ?_⟩
  · intro k hk
    rw [hids, List.getElem?_range' 1 1 hk]
    simp
    omega
  · rw [hids]
    simp
  · rw [hids]
    exact List.pairwise_lt_range' 1 _
  · rw [hids]
    exact List.nodup_range' 1 _
  · intro w more
    rw [run_counter]
    omega

/-! ## Key collision in texture_cache -/

theorem map_find_assign (m : List (String × Int)) (id k : String) (v : Int) :
    map_find (map_assign m id v) k = if k = id then some v else map_find m k := by
  by_cases hk : k = id
  · subst hk
    simp [map_find_assign_same]
  · simp [hk, map_find_assign_other m id k v hk]

theorem map_find_isSome_iff_mem_keys (m : List (String × Int)) (id : String) :
    (map_find m id).isSome = true ↔ id ∈ m.map Prod.fst := by
  induction m with
  | nil => simp [map_find]
  | cons p rest ih =>
    obtain ⟨k, w⟩ := p
    by_cases hk : k = id
    · simp [map_find, hk]
    · have hk2 : ¬ id = k := fun e => hk e.symm
      simp [map_find, hk, hk2, ih]

theorem map_assign_keys (m : List (String × Int)) (id : String) (v : Int) :
    (map_assign m id v).map Prod.fst
      = if id ∈ m.map Prod.fst then m.map Prod.fst else m.map Prod.fst ++ [id] := by
  induction m with
  | nil => simp [map_assign]
  | cons p rest ih =>
    obtain ⟨k, w⟩ := p
    by_cases hk : k = id
    · simp [map_assign, hk]
    · have hk2 : ¬ id = k := fun e => hk e.symm
      simp only [map_assign, hk, if_false, List.map_cons, ih, List.mem_cons, hk2, false_or]
      split <;> simp

theorem map_assign_keys_nodup (m : List (String × Int)) (id : String) (v : Int)
    (hm : (m.map Prod.fst).Nodup) : ((map_assign m id v).map Prod.fst).Nodup := by
  rw [map_assign_keys]
  split
  · exact hm
  · rename_i hnot
    exact List.Nodup.append hm (List.nodup_singleton id) (by simpa using hnot)

theorem map_assign_length_le (m : List (String × Int)) (id : String) (v : Int) :
    (map_assign m id v).length ≤ m.length + 1 := by
  have h := congrArg List.length (map_assign_keys m id v)
  simp only [List.length_map] at h
  rw [h]
  split <;> simp

theorem map_assign_length_of_present (m : List (String × Int)) (id : String) (v : Int)
    (hid : (map_find m id).isSome = true) : (map_assign m id v).length = m.length := by
  have h := congrArg List.length (map_assign_keys m id v)
  simp only [List.length_map] at h
  rw [h, if_pos ((map_find_isSome_iff_mem_keys m id).mp hid)]
  simp

namespace texture_cache

variable {H : Type}

theorem keys_nodup_add_all (s : texture_cache H)
    (hs : (s.texture_lookup_.map Prod.fst).Nodup) (calls : List (H × String)) :
    ((add_all s calls).texture_lookup_.map Prod.fst).Nodup := by
  induction calls generalizing s with
  | nil => exact hs
  | cons x rest ih =>
    obtain ⟨h, id⟩ := x
    exact ih (s.add_texture h id) (map_assign_keys_nodup _ _ _ hs)

theorem keys_le_handles_add_all (s : texture_cache H)
    (hs : s.texture_lookup_.length ≤ s.textures_.length) (calls : List (H × String)) :
    (add_all s calls).texture_lookup_.length ≤ (add_all s calls).textures_.length := by
  induction calls generalizing s with
  | nil => exact hs
  | cons x rest ih =>
    obtain ⟨h, id⟩ := x
    apply ih (s.add_texture h id)
    have := map_assign_length_le s.texture_lookup_ id (int_of_size_t s.textures_.length)
    rw [lookup_add_texture, textures_length_add_texture]
    omega

theorem slot_unreferenced_add_all (K : String) (n : Nat) (s : texture_cache H)
    (hsize : n < s.textures_.length)
    (hs : ∀ k, k ≠ K → map_find s.texture_lookup_ k ≠ some (n : Int))
    (calls : List (H × String)) (hcalls : ∀ p ∈ calls, p.2 ≠ K)
    (hroom : s.textures_.length + calls.length ≤ 2147483648) :
    n < (add_all s calls).textures_.length ∧
    (∀ k, k ≠ K → map_find (add_all s calls).texture_lookup_ k ≠ some (n : Int)) ∧
    map_find (add_all s calls).texture_lookup_ K = map_find s.texture_lookup_ K := by
  induction calls generalizing s with
  | nil => exact ⟨hsize, hs, rfl⟩
  | cons x rest ih =>
    obtain ⟨h, id⟩ := x
    simp only [List.length_cons] at hroom
    have hid : id ≠ K := hcalls (h, id) (List.mem_cons_self _ _)
    have hrest : ∀ p ∈ rest, p.2 ≠ K := fun p hp => hcalls p (List.mem_cons_of_mem _ hp)
    have hsize2 : n < (s.add_texture h id).textures_.length := by
      rw [textures_length_add_texture]
      omega
    have hs2 : ∀ k, k ≠ K → map_find (s.add_texture h id).texture_lookup_ k ≠ some (n : Int) := by
      intro k hk
      rw [lookup_add_texture, int_of_size_t_of_lt _ (by omega), map_find_assign]
      split
      · intro e
        simp only [Option.some.injEq] at e
        omega
      · exact hs k hk
    obtain ⟨h1, h2, h3⟩ := ih (s.add_texture h id) hsize2 hs2 hrest (by
      rw [textures_length_add_texture]
      omega)
    refine ⟨h1, h2, ?_⟩
    simp only [add_all]
    rw [h3, lookup_add_texture]
    exact map_find_assign_other _ _ _ _ (fun e => hid e.symm)

theorem reachable_add_all {c : texture_cache H} (hc : c.reachable)
    (calls : List (H × String)) : (add_all c calls).reachable := by
  obtain ⟨before, rfl⟩ := hc
  exact ⟨before ++ calls, by rw [add_all_append]⟩

theorem keys_nodup_of_reachable {c : texture_cache H}
    (hc : c.reachable) : (c.texture_lookup_.map Prod.fst).Nodup := by
  obtain ⟨calls, rfl⟩ := hc
  exact keys_nodup_add_all empty (by simp [empty]) calls

theorem keys_le_handles_of_reachable {c : texture_cache H}
    (hc : c.reachable) : c.texture_lookup_.length ≤ c.textures_.length := by
  obtain ⟨calls, rfl⟩ := hc
  exact keys_le_handles_add_all empty (by simp [empty]) calls

end texture_cache

theorem position_of_unique_element {α : Type} (A B : List α) (x : α) (j : Nat)
    (hA : x ∉ A) (hB : x ∉ B) (hj : (A ++ x :: B)[j]? = some x) : j = A.length := by
  rcases Nat.lt_trichotomy j A.length with hlt | heq | hgt
  · rw [List.getElem?_append_left hlt] at hj
    exact absurd (List.mem_iff_getElem?.mpr ⟨j, hj⟩) hA
  · exact heq
  · rw [List.getElem?_append_right (by omega)] at hj
    obtain ⟨d, hd⟩ : ∃ d, j - A.length = d + 1 := ⟨j - A.length - 1, by omega⟩
    rw [hd, List.getElem?_cons_succ] at hj
    exact absurd (List.mem_iff_getElem?.mpr ⟨d, hj⟩) hB

/-- C13, refuted as stated, in two ways. The handle 7 inserted under "brick" and
also under "grass" is still returned for "grass" after "brick" is overwritten
with 9, so it remains reachable through a key. And on the reachable cache that
holds 2^31 - 1 handles, after add_texture(7, "brick") and add_texture(9, "brick")
get_texture("brick") does not return 9: the position 2^31 of the handle 9 is
stored as a negative int. -/
theorem texture_cache_overwritten_handle_still_reachable_or_lost :
    ((((texture_cache.empty : texture_cache Nat).add_texture 7 "brick").add_texture 7
        "grass").add_texture 9 "brick").get_texture "grass" = Except.ok 7 ∧
    (((texture_cache.add_all (texture_cache.empty : texture_cache Nat)
        (List.replicate (2147483646 + 1) (0, "k"))).add_texture 7 "brick").add_texture 9
        "brick").get_texture "brick" = Except.error cache_error.index_out_of_bounds := by
  constructor
  · rw [texture_cache.get_texture_add_texture_other _
      (texture_cache.lookup_below_size_of_reachable
        (texture_cache.reachable_add_texture
          (texture_cache.reachable_add_texture texture_cache.reachable_empty 7 "brick")
          7 "grass")) 9 "brick" "grass" (by decide)]
    exact texture_cache.get_texture_add_texture_same _ 7 "grass" (by decide)
  apply texture_cache.get_texture_add_texture_wrapped
  rw [texture_cache.textures_length_add_texture,
    texture_cache.textures_length_add_all_replicate]
  exact int_of_size_t_neg_of_half _ (by omega) (by omega)

/-- C13, amended (key collision is resolved by overwrite, below 2^31 handles). In a
reachable texture_cache, when add_texture(h1, K) is followed, after any inserts
under other keys, by add_texture(h2, K), the cache holding at most 2^31 handles
at the end: get_texture(K) returns h2; h1 is still stored at the position it was
given and no key refers to that position any more; when h1 occurs nowhere else
among the stored handles, no key yields h1; the keys of the lookup map are
pairwise different and strictly fewer than the stored handles; and in every
reachable state the keys are at most as many as the stored handles. -/
theorem texture_cache_key_collision_overwrites {H : Type} (c : texture_cache H)
    (hc : c.reachable) (K : String) (h1 h2 : H) (others : List (H × String))
    (hothers : ∀ p ∈ others, p.2 ≠ K)
    (hroom : c.textures_.length + others.length + 2 ≤ 2147483648) :
    ((texture_cache.add_all (c.add_texture h1 K) others).add_texture h2 K).get_texture K
      = Except.ok h2 ∧
    ((texture_cache.add_all (c.add_texture h1 K) others).add_texture h2 K).textures_[
      c.textures_.length]? = some h1 ∧
    (∀ k : String,
      map_find ((texture_cache.add_all (c.add_texture h1 K) others).add_texture h2
        K).texture_lookup_ k ≠ some (c.textures_.length : Int)) ∧
    (h1 ∉ c.textures_ → h1 ∉ others.map Prod.fst → h1 ≠ h2 →
      ∀ k : String,
        ((texture_cache.add_all (c.add_texture h1 K) others).add_texture h2 K).get_texture k
          ≠ Except.ok h1) ∧
    (((texture_cache.add_all (c.add_texture h1 K) others).add_texture h2
      K).texture_lookup_.map Prod.fst).Nodup ∧
    ((texture_cache.add_all (c.add_texture h1 K) others).add_texture h2 K).texture_lookup_.length
      < ((texture_cache.add_all (c.add_texture h1 K) others).add_texture h2 K).textures_.length ∧
    c.texture_lookup_.length ≤ c.textures_.length := by
  have hbound := texture_cache.lookup_in_bounds_of_reachable hc (by omega)
  have hmid_reach : (texture_cache.add_all (c.add_texture h1 K) others).reachable :=
    texture_cache.reachable_add_all (texture_cache.reachable_add_texture hc h1 K) others
  have hfinal_reach := texture_cache.reachable_add_texture hmid_reach h2 K
  have hmid_size : (texture_cache.add_all (c.add_texture h1 K) others).textures_.length
      = c.textures_.length + 1 + others.length := by
    rw [texture_cache.textures_add_all, texture_cache.textures_add_texture]
    simp only [List.length_append, List.length_singleton, List.length_map]
  -- the position given to h1 is referred to by K only, until K is overwritten
  have hstart : ∀ k, k ≠ K →
      map_find (c.add_texture h1 K).texture_lookup_ k ≠ some (c.textures_.length : Int) := by
    intro k hk e
    rw [texture_cache.lookup_add_texture, map_find_assign_other _ _ _ _ hk] at e
    have := (hbound (k, _) (mem_of_map_find e)).2
    simp at this
  obtain ⟨hsize, hslot, hK⟩ := texture_cache.slot_unreferenced_add_all K c.textures_.length
    (c.add_texture h1 K) (by simp [texture_cache.add_texture]) hstart others hothers (by
      rw [texture_cache.textures_length_add_texture]
      omega)
  have htex : ((texture_cache.add_all (c.add_texture h1 K) others).add_texture h2 K).textures_
      = c.textures_ ++ h1 :: (others.map Prod.fst ++ [h2]) := by
    simp [texture_cache.add_texture, texture_cache.textures_add_all]
  have hunref : ∀ k : String,
      map_find ((texture_cache.add_all (c.add_texture h1 K) others).add_texture h2
        K).texture_lookup_ k ≠ some (c.textures_.length : Int) := by
    intro k
    rw [texture_cache.lookup_add_texture _ h2 K, int_of_size_t_of_lt _ (by omega),
      map_find_assign]
    split
    · intro e
      simp only [Option.some.injEq] at e
      omega
    · rename_i hk
      exact hslot k hk
  refine ⟨texture_cache.get_texture_add_texture_same _ h2 K (by omega), ?_, hunref, ?_,
    texture_cache.keys_nodup_of_reachable hfinal_reach, ?_,
    texture_cache.keys_le_handles_of_reachable hc⟩
  · rw [htex, List.getElem?_append_right (Nat.le_refl _)]
    simp
  · intro hc1 ho1 hne k hget
    simp only [texture_cache.get_texture] at hget
    cases hm : map_find ((texture_cache.add_all (c.add_texture h1 K) others).add_texture h2
        K).texture_lookup_ k with
    | none => simp [hm] at hget
    | some i =>
      simp only [hm, vector_at] at hget
      by_cases hneg : i < 0
      · simp [hneg] at hget
      · simp only [hneg, if_false] at hget
        cases hi : ((texture_cache.add_all (c.add_texture h1 K) others).add_texture h2
            K).textures_[i.toNat]? with
        | none => simp [hi] at hget
        | some x =>
          simp only [hi, Except.ok.injEq] at hget
          subst hget
          rw [htex] at hi
          have hpos := position_of_unique_element c.textures_ (others.map Prod.fst ++ [h2]) x
            i.toNat hc1 (by
              simp only [List.mem_append, List.mem_singleton, not_or]
              exact ⟨ho1, hne⟩) hi
          apply hunref k
          rw [hm]
          congr 1
          omega
  · have hpresent : (map_find (texture_cache.add_all (c.add_texture h1 K) others).texture_lookup_
        K).isSome = true := by
      rw [hK]
      simp [texture_cache.add_texture, map_find_assign_same]
    have hlen := map_assign_length_of_present
      (texture_cache.add_all (c.add_texture h1 K) others).texture_lookup_ K
      (int_of_size_t (texture_cache.add_all (c.add_texture h1 K) others).textures_.length)
      hpresent
    have hle := texture_cache.keys_le_handles_of_reachable hmid_reach
    rw [texture_cache.lookup_add_texture _ h2 K, texture_cache.textures_length_add_texture _ h2 K,
      hlen]
    omega

/-- Witness of C13 amended: the empty cache, handle 7 under "brick", then 8 under
"grass", then 9 under "brick" again. -/
theorem texture_cache_key_collision_overwrites_witness :
    (texture_cache.empty : texture_cache Nat).reachable ∧
    (∀ p ∈ [((8 : Nat), "grass")], p.2 ≠ "brick") ∧
    (texture_cache.empty : texture_cache Nat).textures_.length + [((8 : Nat), "grass")].length + 2
      ≤ 2147483648 ∧
    ((texture_cache.add_all ((texture_cache.empty : texture_cache Nat).add_texture 7 "brick")
        [(8, "grass")]).add_texture 9 "brick").get_texture "brick" = Except.ok 9 ∧
    ((texture_cache.add_all ((texture_cache.empty : texture_cache Nat).add_texture 7 "brick")
        [(8, "grass")]).add_texture 9 "brick").textures_[
      (texture_cache.empty : texture_cache Nat).textures_.length]? = some 7 :=
  ⟨texture_cache.reachable_empty, by decide, by decide,
    (texture_cache_key_collision_overwrites (texture_cache.empty : texture_cache Nat)
      texture_cache.reachable_empty "brick" 7 9 [(8, "grass")] (by decide) (by decide)).1,
    (texture_cache_key_collision_overwrites (texture_cache.empty : texture_cache Nat)
      texture_cache.reachable_empty "brick" 7 9 [(8, "grass")] (by decide) (by decide)).2.1⟩

/-! ## camera_decorator -/

/-- The accessors get_view, get_position, get_projection and get_transform of the
decorator return what the same accessor of the wrapped camera returns, and its
four setters apply the same setter to the wrapped camera. -/
theorem camera_decorator_forwards_other_members {S Mat4 Quat Vec3 Transform : Type}
    (cam : base_camera S Mat4 Quat Vec3 Transform) (d : camera_decorator S)
    (rotation : Quat) (position : Vec3) (projection : Mat4) (transform : Transform) :
    camera_decorator.get_view cam d = cam.get_view d.camera_ ∧
    camera_decorator.get_position cam d = cam.get_position d.camera_ ∧
    camera_decorator.get_projection cam d = cam.get_projection d.camera_ ∧
    camera_decorator.get_transform cam d = cam.get_transform d.camera_ ∧
    (camera_decorator.set_rotation cam rotation d).camera_
      = cam.set_rotation rotation d.camera_ ∧
    (camera_decorator.set_position cam position d).camera_
      = cam.set_position position d.camera_ ∧
    (camera_decorator.set_projection cam projection d).camera_
      = cam.set_projection projection d.camera_ ∧
    (camera_decorator.set_transform cam transform d).camera_
      = cam.set_transform transform d.camera_ :=
  ⟨rfl, rfl, rfl, rfl, rfl, rfl, rfl, rfl⟩

/-- C14, evaluated on the code: get_rotation of the decorator returns the view
matrix of the wrapped camera converted to a quaternion, not the wrapped
camera's rotation. Two cameras at the origin with the rotations (1, 0, 0, 0) and
(-1, 0, 0, 0) have the same view matrix, so whatever the conversion, the
decorator returns the same quaternion for both and differs from the wrapped
get_rotation for at least one of them. -/
theorem camera_decorator_get_rotation_returns_converted_view
    (quat_of_mat4 : List Int → Int × Int × Int × Int) :
    camera_decorator.get_rotation camera_values.interface quat_of_mat4
        ⟨camera_at_origin (1, 0, 0, 0)⟩ = quat_of_mat4 identity_matrix ∧
    camera_decorator.get_rotation camera_values.interface quat_of_mat4
        ⟨camera_at_origin (-1, 0, 0, 0)⟩ = quat_of_mat4 identity_matrix ∧
    ¬ (camera_decorator.get_rotation camera_values.interface quat_of_mat4
          ⟨camera_at_origin (1, 0, 0, 0)⟩
        = camera_values.interface.get_rotation (camera_at_origin (1, 0, 0, 0)) ∧
      camera_decorator.get_rotation camera_values.interface quat_of_mat4
          ⟨camera_at_origin (-1, 0, 0, 0)⟩
        = camera_values.interface.get_rotation (camera_at_origin (-1, 0, 0, 0))) := by
  refine ⟨rfl, rfl, ?_⟩
  rintro ⟨hfirst, hsecond⟩
  have hsame : camera_values.interface.get_rotation (camera_at_origin (1, 0, 0, 0))
      = camera_values.interface.get_rotation (camera_at_origin (-1, 0, 0, 0)) :=
    hfirst.symm.trans hsecond
  exact absurd hsame (by decide)

/-! ## event_dispatcher -/

theorem subscribers_find_assign_same (m : List (Nat × subscriber_ref)) (id : Nat)
    (v : subscriber_ref) : subscribers_find (subscribers_assign m id v) id = some v := by
  induction m with
  | nil => simp [subscribers_assign, subscribers_find]
  | cons p rest ih =>
    obtain ⟨k, w⟩ := p
    by_cases hk : k = id
    · simp [subscribers_assign, subscribers_find, hk]
    · simp [subscribers_assign, subscribers_find, hk, ih]

/-- For a present recipient, post_event succeeds: it appends one queue item with
the event addressed to the recipient, the recipient's id is registered
afterwards, under the recipient when the id was not registered before, and the
subscriber table is left as it was when the id was registered already. -/
theorem event_dispatcher_post_event_present_recipient {E : Type} (d : event_dispatcher E)
    (e : E) (r : subscriber_ref) :
    ∃ d', d.post_event e (some r) = Except.ok d' ∧
      d'.m_events = d.m_events ++ [⟨e, some r⟩] ∧
      (subscribers_find d'.m_subscribers r.m_id).isSome = true ∧
      (subscribers_find d.m_subscribers r.m_id = none →
        subscribers_find d'.m_subscribers r.m_id = some r) ∧
      ((subscribers_find d.m_subscribers r.m_id).isSome = true →
        d'.m_subscribers = d.m_subscribers) := by
  cases hreg : subscribers_find d.m_subscribers r.m_id with
  | none =>
    refine ⟨{ m_events := d.m_events ++ [⟨e, some r⟩],
              m_subscribers := subscribers_assign d.m_subscribers r.m_id r }, ?_, rfl, ?_, ?_, ?_⟩
    · simp [event_dispatcher.post_event, event_dispatcher.registered, hreg,
        event_dispatcher.register_subscribers]
    · simp [subscribers_find_assign_same]
    · intro _
      exact subscribers_find_assign_same _ _ _
    · intro h
      simp at h
  | some old =>
    refine ⟨{ m_events := d.m_events ++ [⟨e, some r⟩], m_subscribers := d.m_subscribers },
      ?_, rfl, ?_, ?_, ?_⟩
    · simp [event_dispatcher.post_event, event_dispatcher.registered, hreg]
    · simp [hreg]
    · intro h
      cases h
    · intro _
      rfl

/-- The loop of run accepts a queue item with a null subscriber: the item is
taken from the queue and nobody is notified. -/
theorem event_dispatcher_run_turn_drops_null_subscriber {E : Type} (e : E)
    (rest : List (event_queue_item E)) (table : List (Nat × subscriber_ref)) :
    event_dispatcher.run_turn (⟨⟨e, none⟩ :: rest, table⟩ : event_dispatcher E)
      = some (none, ⟨rest, table⟩) := rfl

/-- C15, evaluated on the code: post_event with the default, null recipient does
not complete, in any dispatcher state and for any event: registered reads
recipient->m_id through the null pointer before anything is enqueued. -/
theorem event_dispatcher_post_event_null_recipient_fails {E : Type} (d : event_dispatcher E)
    (e : E) :
    d.registered none = Except.error dispatcher_error.null_pointer_dereference ∧
    d.post_event e none = Except.error dispatcher_error.null_pointer_dereference :=
  ⟨rfl, rfl⟩

/-! ## Keyboard state indexing -/

theorem key_at_its_value (ky : key) :
    (key_declarations.map Prod.fst)[key_value ky]? = some ky := by
  cases ky <;> rfl

/-- C16 (keyboard state indexing is in bounds). The enumeration key has 86
enumerators, each declared once, with the values 0 (none) to 85 (z) in
declaration order and without gaps or duplicates; keys_ has 86 elements; so the
value of every key is a valid index into keys_, and distinct keys have distinct
values. -/
theorem key_values_index_keys_in_bounds :
    key_declarations.length = 86 ∧
    keyboard_state.keys_size = 86 ∧
    (enumerator_values 0 key_declarations).map Prod.snd = List.range 86 ∧
    (∀ ky : key, ky ∈ key_declarations.map Prod.fst) ∧
    (key_declarations.map Prod.fst).Nodup ∧
    key_value key.none = 0 ∧
    key_value key.z = 85 ∧
    (∀ ky : key, key_value ky < keyboard_state.keys_size) ∧
    (∀ k1 k2 : key, key_value k1 = key_value k2 → k1 = k2) := by
  have hinj : ∀ k1 k2 : key, key_value k1 = key_value k2 → k1 = k2 := by
    intro k1 k2 heq
    have h1 := key_at_its_value k1
    rw [heq, key_at_its_value k2] at h1
    exact (Option.some.inj h1).symm
  refine ⟨rfl, rfl, by decide, ?_, by decide, rfl, rfl, ?_, hinj⟩
  · intro ky
    cases ky <;> decide
  · intro ky
    cases ky <;> decide

end moka
